import Mathlib

/-!
Verification development for the `@untools/react-query-hooks` library.

The library provides React hooks for asynchronous data retrieval:
`useQuery` (single fetch), `usePaginatedQuery`, `useInfiniteQuery` and
`useDebounce`.  Each hook is shallowly embedded here as an explicit state
machine: the React component state, the `useRef` bookkeeping cells and the
environment's view of the outstanding producer invocations are gathered in
one state record, and every synchronous block of the source (an effect body,
a callback, the code before or after an `await`) becomes a total Lean
function on that record.

Execution model mirrored from the source and its host framework:
* the runtime is single threaded; the only suspension points are the
  `await service(...)` calls, so everything between two suspension points
  is one atomic step;
* a `useEffect` with a dependency array re-runs exactly when the
  dependency tuple differs from the one recorded at its previous run, and
  effects of one render all close over that render's state (modelled by
  passing a snapshot of the relevant fields to each effect body);
* a state setter called through React (`setX`) is discarded by the
  framework once the component is unmounted; the `isMounted` guards that
  the source additionally places around post-`await` setters are kept
  verbatim;
* a producer promise settles only after the synchronous render cascade
  caused by its triggering action has completed (a network response cannot
  interleave with the synchronous re-renders).

Machine integers do not occur; JavaScript values inspected by the error
normalisation are embedded as an explicit inductive type.  Object identity
(`!==` comparisons on filter / pagination / sort values) is embedded by
tagging values with a numeric object id that is bumped whenever the source
constructs a fresh object.
-/

namespace RQHooks

/-! ### JavaScript failure values and error normalisation -/

/-- A JavaScript runtime value, as far as the error-normalisation code in the
three hooks inspects it: it distinguishes strings, objects carrying a
`message` property, objects without one, and the remaining primitives. -/
inductive JSVal where
  | vnull
  | vundef
  | vstr (s : String)
  | vnum (n : Int)
  | vbool (b : Bool)
  | vobjMsg (message : JSVal)
  | vobjPlain
deriving Repr, DecidableEq

/-- Embedding of the optional chaining access `(err as any)?.message`:
`null` and `undefined` yield `undefined`, primitives have no `message`
property, objects yield their `message` field when present. -/
def jsOptMessage : JSVal → Option JSVal
  | .vobjMsg m => some m
  | _ => none

/-- Embedding of the source's catch-block normalisation, the nested ternary
`typeof err === "string" ? err : typeof err?.message === "string" ?
err.message : "Unknown error"` shared by all three hooks. -/
def normalizeErrorMessage (err : JSVal) : String :=
  match err with
  | .vstr s => s
  | _ =>
    match jsOptMessage err with
    | some (.vstr s) => s
    | _ => "Unknown error"

/-- Whether a failure value is a plain text message. -/
def failureIsText : JSVal → Bool
  | .vstr _ => true
  | _ => false

/-- The text carried by a plain text failure (unused branches return ""). -/
def failureText : JSVal → String
  | .vstr s => s
  | _ => ""

/-- The `message` field of the failure when that field is text. -/
def messageFieldText : JSVal → Option String
  | .vobjMsg (.vstr s) => some s
  | _ => none

/-- Modelled from the spec wording (for refinement comparison with
`normalizeErrorMessage`): the stored message is the failure itself if it is
already a plain text message, otherwise the `message` field of the failure
if that field is text, otherwise the fixed placeholder "Unknown error". -/
def specErrorMessage (err : JSVal) : String :=
  if failureIsText err then failureText err
  else (messageFieldText err).getD "Unknown error"

/-! ### The debouncer (`useDebounce`)

`useDebounce` stores the input in local state and, on every change of the
input value (or of the delay), cancels the previously scheduled timer and
schedules a new one `delay` units later that publishes the then-current
input.  We embed a run of the debouncer as the list of input changes
`(time, value)` in strictly increasing time order and compute the list of
output assignments it produces: the timer scheduled by a change fires iff
no further change happens strictly before its expiry (the cleanup of the
effect cancels a still-pending timer; a timer whose expiry precedes the
next change has already fired when the cleanup runs).  The final change's
timer always fires. -/

/-- Output assignments `(time, value)` produced by the debouncer for a list
of input changes, given the delay. -/
def debounceFires (delay : Nat) : List (Nat × Nat) → List (Nat × Nat)
  | [] => []
  | (t, v) :: rest =>
    match rest with
    | [] => [(t + delay, v)]
    | (tNext, _) :: _ =>
      (if t + delay ≤ tNext then [(t + delay, v)] else []) ++ debounceFires delay rest

/-- A burst: consecutive input changes are in strictly increasing time order
and each gap is strictly smaller than the delay. -/
def burstWithin (delay : Nat) : List (Nat × Nat) → Bool
  | (t, _) :: (tNext, vNext) :: rest =>
    decide (t < tNext) && decide (tNext < t + delay) && burstWithin delay ((tNext, vNext) :: rest)
  | _ => true

/-! ### The single-fetch controller (`useQuery`)

The repository carries two draft revisions of `useQuery`.  The primary
revision (the first content of `src/hooks/useQuery.ts`) guards `fetchData`
only with the liveness flag; the later revision additionally keeps a
`requestInProgress` ref and drops a call while one is outstanding.  The
field `guarded` selects the revision; everything else is shared.  Since the
primary revision has no in-flight guard, several producer invocations can
be outstanding at once, so the environment's count of outstanding
invocations is a number, not a flag. -/

/-- State of one `useQuery` controller instance together with the
environment's bookkeeping (`outstanding`, `callCount`). -/
structure QState where
  data : Option Nat
  error : Option String
  isLoading : Bool
  isMounted : Bool
  /-- Number of producer invocations currently outstanding. -/
  outstanding : Nat
  /-- Total number of producer invocations so far. -/
  callCount : Nat
  /-- Which revision: `true` keeps the `requestInProgress` guard. -/
  guarded : Bool
  immediate : Bool
deriving Repr, DecidableEq

/-- Initial state: `data` is seeded from `state?.getState?.() || null`,
`isLoading` starts as the `immediate` flag, the liveness ref starts `true`. -/
def qInit (guarded immediate : Bool) (seed : Option Nat) : QState :=
  { data := seed, error := none, isLoading := immediate, isMounted := true,
    outstanding := 0, callCount := 0, guarded := guarded, immediate := immediate }

/-- The synchronous prefix of `fetchData` up to the `await`: the early
returns (`!isMounted`, and in the guarded revision `requestInProgress`),
then `setIsLoading(true)`, `setError(null)` and the producer invocation. -/
def qFetchStart (s : QState) : QState :=
  if !s.isMounted then s
  else if s.guarded && decide (s.outstanding ≠ 0) then s
  else
    { s with isLoading := true, error := none,
             outstanding := s.outstanding + 1, callCount := s.callCount + 1 }

/-- Resumption after the producer resolved with `v`: the guarded
`setData`, then the `finally` block (guarded `setIsLoading(false)`).  A
settle with nothing outstanding cannot occur and is a no-op. -/
def qSettleOk (v : Option Nat) (s : QState) : QState :=
  if s.outstanding = 0 then s
  else
    let s1 := if s.isMounted then { s with data := v } else s
    let s2 := { s1 with outstanding := s1.outstanding - 1 }
    if s2.isMounted then { s2 with isLoading := false } else s2

/-- Resumption after the producer rejected with `e`: the guarded
`setError(new Error(...))` with the normalised message, then the `finally`
block. -/
def qSettleErr (e : JSVal) (s : QState) : QState :=
  if s.outstanding = 0 then s
  else
    let s1 := if s.isMounted then { s with error := some (normalizeErrorMessage e) } else s
    let s2 := { s1 with outstanding := s1.outstanding - 1 }
    if s2.isMounted then { s2 with isLoading := false } else s2

/-- External events driving one `useQuery` instance. -/
inductive QEv where
  | mount
  | refresh
  | settleOk (v : Option Nat)
  | settleErr (e : JSVal)
  | unmount
deriving Repr, DecidableEq

/-- One event step of the single-fetch controller.  `mount` is the mount
effect (fetch iff `immediate`); `refresh` is the exposed callback (it is
`fetchData` itself); the settles are promise resumptions; `unmount` runs
the cleanup that clears the liveness ref. -/
def qStep (ev : QEv) (s : QState) : QState :=
  match ev with
  | .mount => if s.immediate then qFetchStart s else s
  | .refresh => qFetchStart s
  | .settleOk v => qSettleOk v s
  | .settleErr e => qSettleErr e s
  | .unmount => { s with isMounted := false }

/-- Run a list of events from a state. -/
def qRun (s : QState) (evs : List QEv) : QState :=
  evs.foldl (fun a e => qStep e a) s

/-! ### Shared data shapes of the paginated and infinite controllers -/

/-- The default metadata shape (`DefaultMeta` in `types.ts`), with the
optional fields taken as present, as in the literal default objects the
hooks construct. -/
structure PageMeta where
  page : Nat
  limit : Nat
  pages : Nat
  total : Nat
  hasNextPage : Bool
  hasPrevPage : Bool
deriving Repr, DecidableEq

/-- The default metadata object both list hooks build in their `useState`
initialiser (`page: 1, limit, pages: 1, total: 0, no next, no prev`). -/
def defaultPageMeta (limit : Nat) : PageMeta :=
  { page := 1, limit := limit, pages := 1, total := 0,
    hasNextPage := false, hasPrevPage := false }

/-- A pagination object.  `oid` is the JavaScript object identity: the
source compares pagination values with `!==`, and every `setPagination`
call (and the page-1 reset) constructs a fresh object. -/
structure Pg where
  oid : Nat
  page : Nat
  limit : Nat
deriving Repr, DecidableEq

/-- A query result as returned by the producer: the page's items (item
ids) and its metadata. -/
structure PagResult where
  items : List Nat
  meta : PageMeta
deriving Repr, DecidableEq

/-- The arguments of one `service.getData` invocation of the paginated
controller.  Filters and sort are embedded as numeric ids standing for the
caller's opaque values (fresh id = fresh object passed by the caller). -/
structure PagCall where
  pg : Pg
  sort : Option Nat
  filters : Nat
deriving Repr, DecidableEq

/-- JavaScript truthiness of a filters value in our numeric embedding:
`0` stands for the falsy values (`undefined`, `null`, `0`, `""`). -/
def jsTruthyNat (n : Nat) : Bool := n != 0

/-! ### The paginated controller (`usePaginatedQuery`)

State record, then one Lean function per synchronous block of the source:
`pagFetchStart` (the part of `fetchData` before the `await`), the two
settle resumptions, the three data-flow effects (filter change,
pagination/sort change, enabled refetch), the render pass that runs them
when their shared dependency tuple changed, and the exposed callbacks.

The three effects have the same dependency tuple
`(debouncedFilters, pagination, sort, fetchData, enabled)`; `fetchData` is
recreated only when `enabled` changes and `enabled` is a fixed prop here,
so the tuple reduces to `(debouncedFilters, pagination identity, sort)`,
recorded in `lastDeps`. -/

/-- State of one `usePaginatedQuery` controller instance: React state,
the `useRef` cells, React's record of the effects' last dependency tuple,
and the environment's bookkeeping (`outstanding`, `callLog`, `nextOid`). -/
structure PagState where
  data : Option PagResult
  error : Option String
  isLoading : Bool
  filters : Nat
  pagination : Pg
  sort : Option Nat
  /-- Output of `useDebounce(filters, debounceTime)`. -/
  debouncedFilters : Nat
  isMounted : Bool
  prevFilters : Nat
  /-- `prevPaginationRef`, compared by object identity. -/
  prevPgOid : Nat
  prevSort : Option Nat
  /-- Dependency tuple `(debouncedFilters, pagination.oid, sort)` at the
  effects' previous run. -/
  lastDeps : Nat × Nat × Option Nat
  /-- Producer invocations currently outstanding (the in-flight request).
  The source's `requestInProgress` flag is set exactly when a call is
  pushed and cleared in the `finally` block when it settles, so the flag
  equals `!outstanding.isEmpty`. -/
  outstanding : List PagCall
  /-- All producer invocations so far, in order. -/
  callLog : List PagCall
  /-- Next fresh JavaScript object id. -/
  nextOid : Nat
  /-- The `enabled` prop (fixed for the instance's lifetime here). -/
  enabled : Bool
deriving Repr, DecidableEq

/-- Dependency tuple of the three data-flow effects for the current state. -/
def pagDepsOf (s : PagState) : Nat × Nat × Option Nat :=
  (s.debouncedFilters, s.pagination.oid, s.sort)

/-- Initial state at first render: `data` from `getState?.() || default`,
`isLoading` starts as `enabled`, refs initialised to the initial values,
no request outstanding. -/
def pagInit (enabled : Bool) (f0 : Nat) (page0 limit0 : Nat) (sort0 : Option Nat)
    (seed : Option PagResult) : PagState :=
  { data := some (seed.getD { items := [], meta := defaultPageMeta 10 })
    error := none
    isLoading := enabled
    filters := f0
    pagination := { oid := 0, page := page0, limit := limit0 }
    sort := sort0
    debouncedFilters := f0
    isMounted := true
    prevFilters := f0
    prevPgOid := 0
    prevSort := sort0
    lastDeps := (f0, 0, sort0)
    outstanding := []
    callLog := []
    nextOid := 1
    enabled := enabled }

/-- The synchronous prefix of the paginated `fetchData` up to the `await`:
the guard `requestInProgress || !isMounted || !enabled`, then
`requestInProgress = true`, `setIsLoading(true)`, `setError(null)` and the
producer invocation with the argument values captured at the call site. -/
def pagFetchStart (pg : Pg) (srt : Option Nat) (fl : Nat) (s : PagState) : PagState :=
  if !s.outstanding.isEmpty || !s.isMounted || !s.enabled then s
  else
    { s with isLoading := true, error := none,
             outstanding := s.outstanding ++ [{ pg := pg, sort := srt, filters := fl }],
             callLog := s.callLog ++ [{ pg := pg, sort := srt, filters := fl }] }

/-- Resumption after the producer resolved with `v`: guarded `setData`,
then the `finally` block (`requestInProgress = false`, guarded
`setIsLoading(false)`). -/
def pagSettleOk (v : Option PagResult) (s : PagState) : PagState :=
  match s.outstanding with
  | [] => s
  | _ :: rest =>
    let s1 := if s.isMounted then { s with data := v } else s
    let s2 := { s1 with outstanding := rest }
    if s2.isMounted then { s2 with isLoading := false } else s2

/-- Resumption after the producer rejected with `e`: guarded
`setError(new Error(errorMessage))`, then the `finally` block. -/
def pagSettleErr (e : JSVal) (s : PagState) : PagState :=
  match s.outstanding with
  | [] => s
  | _ :: rest =>
    let s1 := if s.isMounted then { s with error := some (normalizeErrorMessage e) } else s
    let s2 := { s1 with outstanding := rest }
    if s2.isMounted then { s2 with isLoading := false } else s2

/-- The filter-change effect: on a change of the debounced filters, reset
pagination to page 1 when the current page is not 1 (constructing a fresh
pagination object) and return without fetching; otherwise fetch when the
filters changed (the second disjunct of the source's condition reads the
ref it just overwrote and is therefore never true).  Snapshot arguments
are the render's values; early return when disabled. -/
def pagEffectFilters (snapPg : Pg) (snapSort : Option Nat) (snapDeb : Nat)
    (s : PagState) : PagState :=
  if !s.enabled then s
  else
    let filtersChanged := s.prevFilters != snapDeb
    let s1 := { s with prevFilters := snapDeb }
    if filtersChanged && snapPg.page != 1 then
      { s1 with pagination := { oid := s1.nextOid, page := 1, limit := s1.pagination.limit },
                nextOid := s1.nextOid + 1 }
    else if filtersChanged || (!jsTruthyNat s1.prevFilters && jsTruthyNat snapDeb) then
      pagFetchStart snapPg snapSort snapDeb s1
    else s1

/-- The pagination/sort-change effect: fetch when the pagination object or
the sort value differs (by identity) from the previous render's. -/
def pagEffectPgSort (snapPg : Pg) (snapSort : Option Nat) (snapDeb : Nat)
    (s : PagState) : PagState :=
  if !s.enabled then s
  else
    let pgChanged := s.prevPgOid != snapPg.oid
    let sortChanged := s.prevSort != snapSort
    let s1 := { s with prevPgOid := snapPg.oid, prevSort := snapSort }
    if pgChanged || sortChanged then pagFetchStart snapPg snapSort snapDeb s1 else s1

/-- The enabled-refetch effect: its body fetches whenever it runs and the
controller is enabled; when disabled it clears `isLoading`.  Its
dependency array also lists pagination, sort and the debounced filters, so
it re-runs on every change of those. -/
def pagEffectEnabled (snapPg : Pg) (snapSort : Option Nat) (snapDeb : Nat)
    (s : PagState) : PagState :=
  if s.enabled then pagFetchStart snapPg snapSort snapDeb s
  else { s with isLoading := false }

/-- One render pass: if the shared dependency tuple changed since the
effects' last run, run the three effects in declaration order on a
snapshot of the render's values; otherwise nothing runs.  An unmounted
component no longer renders. -/
def pagRenderPass (s : PagState) : PagState :=
  if !s.isMounted then s
  else if pagDepsOf s = s.lastDeps then s
  else
    let snapPg := s.pagination
    let snapSort := s.sort
    let snapDeb := s.debouncedFilters
    let s1 := { s with lastDeps := pagDepsOf s }
    let s2 := pagEffectFilters snapPg snapSort snapDeb s1
    let s3 := pagEffectPgSort snapPg snapSort snapDeb s2
    pagEffectEnabled snapPg snapSort snapDeb s3

/-- Run render passes to quiescence (state updates from an effect trigger
a further render).  Fuel bounds the cascade; every scenario below
stabilises within the fuel. -/
def pagStabilize : Nat → PagState → PagState
  | 0, s => s
  | n + 1, s =>
    let s1 := pagRenderPass s
    if s1 = s then s else pagStabilize n s1

/-- First-render run of the three data-flow effects (a first render always
executes every effect), on a snapshot of the render's values. -/
def pagMountEffects (s1 : PagState) : PagState :=
  let snapPg := s1.pagination
  let snapSort := s1.sort
  let snapDeb := s1.debouncedFilters
  let s2 := { s1 with lastDeps := pagDepsOf s1 }
  let s3 := pagEffectFilters snapPg snapSort snapDeb s2
  let s4 := pagEffectPgSort snapPg snapSort snapDeb s3
  pagEffectEnabled snapPg snapSort snapDeb s4

/-- The mount step: the mount effect (`isMounted = true`,
`requestInProgress = false`, fetch iff enabled, else clear `isLoading`),
followed by the first run of the three data-flow effects. -/
def pagMount (s : PagState) : PagState :=
  let s0 := { s with isMounted := true }
  let s1 := if s0.enabled then pagFetchStart s0.pagination s0.sort s0.debouncedFilters s0
            else { s0 with isLoading := false }
  pagMountEffects s1

/-- The exposed `refresh` callback: `fetchData(pagination, sort,
debouncedFilters)` with the latest rendered values. -/
def pagRefresh (s : PagState) : PagState :=
  pagFetchStart s.pagination s.sort s.debouncedFilters s

/-- External events driving one `usePaginatedQuery` instance.  The setter
events carry the caller's fresh value; `debounce` is the debouncer's timer
publishing a value to `debouncedFilters`; the settles are promise
resumptions of the in-flight call. -/
inductive PagEv where
  | mount
  | setFilters (v : Nat)
  | setPagination (page limit : Nat)
  | setSort (v : Option Nat)
  | debounce (v : Nat)
  | refresh
  | settleOk (v : Option PagResult)
  | settleErr (e : JSVal)
  | unmount
deriving Repr, DecidableEq

/-- One event step: the event's synchronous handler, then the render
cascade it causes.  State setters reaching React after unmount are
discarded by the framework (and the debouncer's cleanup has cancelled its
timer), so those handlers are mount-guarded. -/
def pagStep (ev : PagEv) (s : PagState) : PagState :=
  match ev with
  | .mount => pagStabilize 6 (pagMount s)
  | .setFilters v =>
    if s.isMounted then pagStabilize 6 { s with filters := v } else s
  | .setPagination page limit =>
    if s.isMounted then
      pagStabilize 6 { s with pagination := { oid := s.nextOid, page := page, limit := limit },
                              nextOid := s.nextOid + 1 }
    else s
  | .setSort v =>
    if s.isMounted then pagStabilize 6 { s with sort := v } else s
  | .debounce v =>
    if s.isMounted then pagStabilize 6 { s with debouncedFilters := v } else s
  | .refresh => pagStabilize 6 (pagRefresh s)
  | .settleOk v => pagStabilize 6 (pagSettleOk v s)
  | .settleErr e => pagStabilize 6 (pagSettleErr e s)
  | .unmount => { s with isMounted := false }

/-- Run a list of events from a state. -/
def pagRun (s : PagState) (evs : List PagEv) : PagState :=
  evs.foldl (fun a e => pagStep e a) s

/-! ### The infinite controller (`useInfiniteQuery`)

Same embedding style.  The controller owns its page cursor
(`currentPageRef`); `fetchData` takes the page number and an `append`
flag.  The two data-flow effects are the filter/sort-change effect and the
enabled effect; their shared dependency tuple reduces to
`(debouncedFilters, sort)` for a fixed `enabled`.  A ghost field
`pagesSinceReset` records the item lists of the pages fetched successfully
since the last reset point (a `reset()` or a successful non-append fetch);
it is bookkeeping of the verification, not of the source. -/

/-- The infinite query result triple held in `data`. -/
structure InfData where
  dataL : List Nat
  meta : PageMeta
  allData : List Nat
deriving Repr, DecidableEq

/-- The arguments of one `service.getData` invocation of the infinite
controller (`pagination: (page, pageSize)`), plus the `append` flag the
closure captured. -/
structure InfCall where
  page : Nat
  sort : Option Nat
  filters : Nat
  append : Bool
deriving Repr, DecidableEq

/-- State of one `useInfiniteQuery` controller instance. -/
structure InfState where
  idata : InfData
  error : Option String
  isLoading : Bool
  isLoadingMore : Bool
  filters : Nat
  sort : Option Nat
  debouncedFilters : Nat
  isMounted : Bool
  /-- `currentPageRef`. -/
  currentPage : Nat
  prevFilters : Nat
  prevSort : Option Nat
  /-- Dependency tuple `(debouncedFilters, sort)` at the effects'
  previous run. -/
  lastDepsG : Nat × Option Nat
  outstanding : List InfCall
  callLog : List InfCall
  /-- Ghost: item lists of the pages fetched successfully since the last
  reset point, in fetch order. -/
  pagesSinceReset : List (List Nat)
  enabled : Bool
  pageSize : Nat
deriving Repr, DecidableEq

/-- Dependency tuple of the two data-flow effects for the current state. -/
def infDepsOf (s : InfState) : Nat × Option Nat :=
  (s.debouncedFilters, s.sort)

/-- The empty result the `useState` initialiser and `reset()` build. -/
def infEmptyData (pageSize : Nat) : InfData :=
  { dataL := [], meta := defaultPageMeta pageSize, allData := [] }

/-- Initial state at first render: `data` from `getState?.() || empty`,
both loading flags start `false`, cursor at 1. -/
def infInit (enabled : Bool) (f0 : Nat) (sort0 : Option Nat) (pageSize : Nat)
    (seed : Option InfData) : InfState :=
  { idata := seed.getD (infEmptyData pageSize)
    error := none
    isLoading := false
    isLoadingMore := false
    filters := f0
    sort := sort0
    debouncedFilters := f0
    isMounted := true
    currentPage := 1
    prevFilters := f0
    prevSort := sort0
    lastDepsG := (f0, sort0)
    outstanding := []
    callLog := []
    pagesSinceReset := []
    enabled := enabled
    pageSize := pageSize }

/-- The synchronous prefix of the infinite `fetchData` up to the `await`:
the guard `requestInProgress || !isMounted || !enabled`, then
`setIsLoadingMore(true)` when appending else `setIsLoading(true)`,
`setError(null)`, and the producer invocation with
`pagination: (page, pageSize)`. -/
def infFetchStart (page : Nat) (srt : Option Nat) (fl : Nat) (append : Bool)
    (s : InfState) : InfState :=
  if !s.outstanding.isEmpty || !s.isMounted || !s.enabled then s
  else
    let s1 := if append then { s with isLoadingMore := true } else { s with isLoading := true }
    { s1 with error := none,
              outstanding := s1.outstanding ++ [{ page := page, sort := srt, filters := fl, append := append }],
              callLog := s1.callLog ++ [{ page := page, sort := srt, filters := fl, append := append }] }

/-- Resumption after the producer resolved with `v`: the guarded functional
`setData` builds `allData ++ items` when appending, else `items`, replaces
`data`/`meta` with the new page's values and advances `currentPageRef` to
the fetched page; then the `finally` block clears both loading flags.  The
ghost list is updated alongside `allData`. -/
def infSettleOk (v : PagResult) (s : InfState) : InfState :=
  match s.outstanding with
  | [] => s
  | c :: rest =>
    let s1 :=
      if s.isMounted then
        { s with
          idata := { dataL := v.items, meta := v.meta,
                     allData := if c.append then s.idata.allData ++ v.items else v.items },
          pagesSinceReset := if c.append then s.pagesSinceReset ++ [v.items] else [v.items],
          currentPage := c.page }
      else s
    let s2 := { s1 with outstanding := rest }
    if s2.isMounted then { s2 with isLoading := false, isLoadingMore := false } else s2

/-- Resumption after the producer rejected with `e`: guarded `setError`
with the normalised message (no touch of `data` or the cursor), then the
`finally` block. -/
def infSettleErr (e : JSVal) (s : InfState) : InfState :=
  match s.outstanding with
  | [] => s
  | _ :: rest =>
    let s1 := if s.isMounted then { s with error := some (normalizeErrorMessage e) } else s
    let s2 := { s1 with outstanding := rest }
    if s2.isMounted then { s2 with isLoading := false, isLoadingMore := false } else s2

/-- The filter/sort-change effect: when the debounced filters or the sort
differ from the previous render's, reset the cursor to 1 and fetch page 1
replacing.  Early return when disabled. -/
def infEffectFS (snapSort : Option Nat) (snapDeb : Nat) (s : InfState) : InfState :=
  if !s.enabled then s
  else
    let filtersChanged := s.prevFilters != snapDeb
    let sortChanged := s.prevSort != snapSort
    let s1 := { s with prevFilters := snapDeb, prevSort := snapSort }
    if filtersChanged || sortChanged then
      infFetchStart 1 snapSort snapDeb false { s1 with currentPage := 1 }
    else s1

/-- The enabled effect: when enabled it resets the cursor and fetches page
1 replacing (its dependency array also lists sort and the debounced
filters, so it re-runs on every change of those); when disabled it clears
both loading flags. -/
def infEffectEnabled (snapSort : Option Nat) (snapDeb : Nat) (s : InfState) : InfState :=
  if s.enabled then
    infFetchStart 1 snapSort snapDeb false { s with currentPage := 1 }
  else { s with isLoading := false, isLoadingMore := false }

/-- One render pass of the infinite controller. -/
def infRenderPass (s : InfState) : InfState :=
  if !s.isMounted then s
  else if infDepsOf s = s.lastDepsG then s
  else
    let snapSort := s.sort
    let snapDeb := s.debouncedFilters
    let s1 := { s with lastDepsG := infDepsOf s }
    let s2 := infEffectFS snapSort snapDeb s1
    infEffectEnabled snapSort snapDeb s2

/-- Render passes to quiescence, fuel bounded. -/
def infStabilize : Nat → InfState → InfState
  | 0, s => s
  | n + 1, s =>
    let s1 := infRenderPass s
    if s1 = s then s else infStabilize n s1

/-- First-render run of the two data-flow effects of the infinite
controller, on a snapshot of the render's values. -/
def infMountEffects (s1 : InfState) : InfState :=
  let snapSort := s1.sort
  let snapDeb := s1.debouncedFilters
  let s2 := { s1 with lastDepsG := infDepsOf s1 }
  let s3 := infEffectFS snapSort snapDeb s2
  infEffectEnabled snapSort snapDeb s3

/-- The mount step: the mount effect (`isMounted = true`, cursor to 1,
fetch page 1 iff enabled, else clear `isLoading`), followed by the first
run of the two data-flow effects. -/
def infMount (s : InfState) : InfState :=
  let s0 := { s with isMounted := true, currentPage := 1 }
  let s1 := if s0.enabled then infFetchStart 1 s0.sort s0.debouncedFilters false s0
            else { s0 with isLoading := false }
  infMountEffects s1

/-- The exposed `loadMore` callback: no-op unless the last metadata says a
next page exists and no request is in flight; otherwise fetch page
`currentPage + 1` appending. -/
def infLoadMore (s : InfState) : InfState :=
  if !s.idata.meta.hasNextPage || !s.outstanding.isEmpty then s
  else infFetchStart (s.currentPage + 1) s.sort s.debouncedFilters true s

/-- The exposed `refresh` callback: cursor to 1, fetch page 1 replacing. -/
def infRefresh (s : InfState) : InfState :=
  infFetchStart 1 s.sort s.debouncedFilters false { s with currentPage := 1 }

/-- The exposed `reset` callback: cursor to 1, `setData(empty)` and
`setError(null)` (framework-discarded after unmount), then fetch page 1
iff enabled.  The ghost list is cleared with `allData`. -/
def infReset (s : InfState) : InfState :=
  let s1 := { s with currentPage := 1 }
  let s2 :=
    if s1.isMounted then
      { s1 with idata := infEmptyData s1.pageSize, error := none, pagesSinceReset := [] }
    else s1
  if s2.enabled then infFetchStart 1 s2.sort s2.debouncedFilters false s2 else s2

/-- External events driving one `useInfiniteQuery` instance. -/
inductive InfEv where
  | mount
  | setFilters (v : Nat)
  | setSort (v : Option Nat)
  | debounce (v : Nat)
  | loadMore
  | refresh
  | reset
  | settleOk (v : PagResult)
  | settleErr (e : JSVal)
  | unmount
deriving Repr, DecidableEq

/-- One event step of the infinite controller: the event's synchronous
handler, then the render cascade it causes. -/
def infStep (ev : InfEv) (s : InfState) : InfState :=
  match ev with
  | .mount => infStabilize 6 (infMount s)
  | .setFilters v =>
    if s.isMounted then infStabilize 6 { s with filters := v } else s
  | .setSort v =>
    if s.isMounted then infStabilize 6 { s with sort := v } else s
  | .debounce v =>
    if s.isMounted then infStabilize 6 { s with debouncedFilters := v } else s
  | .loadMore => infStabilize 6 (infLoadMore s)
  | .refresh => infStabilize 6 (infRefresh s)
  | .reset => infStabilize 6 (infReset s)
  | .settleOk v => infStabilize 6 (infSettleOk v s)
  | .settleErr e => infStabilize 6 (infSettleErr e s)
  | .unmount => { s with isMounted := false }

/-- Run a list of events from a state. -/
def infRun (s : InfState) (evs : List InfEv) : InfState :=
  evs.foldl (fun a e => infStep e a) s

/-! ### Derived notions used by the theorems -/

/-- The consumer-observable part of a paginated controller's state: the
returned record fields plus the owned input state.  The refs
(`requestInProgress`, previous-value snapshots) and the environment
bookkeeping are private. -/
def pagObs (s : PagState) :
    Option PagResult × Option String × Bool × Nat × Pg × Option Nat × Nat :=
  (s.data, s.error, s.isLoading, s.filters, s.pagination, s.sort, s.debouncedFilters)

/-- The consumer-observable part of an infinite controller's state. -/
def infObs (s : InfState) :
    InfData × Option String × Bool × Bool × Nat × Option Nat × Nat :=
  (s.idata, s.error, s.isLoading, s.isLoadingMore, s.filters, s.sort, s.debouncedFilters)

/-- The consumer-observable part of a single-fetch controller's state. -/
def qObs (s : QState) : Option Nat × Option String × Bool :=
  (s.data, s.error, s.isLoading)

/-- Loading-flag invariant of the paginated controller (for a mounted,
enabled instance): `isLoading` holds exactly while a request is
outstanding, and at most one is. -/
def pagLoadInv (s : PagState) : Prop :=
  s.isMounted = true ∧ s.enabled = true ∧ s.outstanding.length ≤ 1 ∧
  s.isLoading = !s.outstanding.isEmpty

/-- Loading-flag invariant of the infinite controller: `isLoading` holds
exactly while a replacing request is outstanding, `isLoadingMore` exactly
while an appending one is. -/
def infLoadInv (s : InfState) : Prop :=
  s.isMounted = true ∧ s.enabled = true ∧ s.outstanding.length ≤ 1 ∧
  s.isLoading = s.outstanding.any (fun c => !c.append) ∧
  s.isLoadingMore = s.outstanding.any (fun c => c.append)

/-- Loading-flag invariant of the single-fetch controller (guarded
revision): `isLoading` holds exactly while a request is outstanding. -/
def qLoadInv (s : QState) : Prop :=
  s.isMounted = true ∧ s.guarded = true ∧ s.outstanding ≤ 1 ∧
  s.isLoading = decide (s.outstanding ≠ 0)

/-- Structural invariant of the paginated controller holding on every
reachable state: at most one request outstanding, and a stored error
implies the controller is idle. -/
def PagInvA (s : PagState) : Prop :=
  s.outstanding.length ≤ 1 ∧ (s.error ≠ none → s.outstanding = [])

/-- Structural invariant of the infinite controller holding on every
reachable state. -/
def InfInvA (s : InfState) : Prop :=
  s.outstanding.length ≤ 1 ∧ (s.error ≠ none → s.outstanding = []) ∧
  (s.enabled = false → s.error = none ∧ s.outstanding = [])

/-- Structural invariant of the guarded single-fetch controller. -/
def QInvA (s : QState) : Prop :=
  s.guarded = true ∧ s.outstanding ≤ 1 ∧ (s.error ≠ none → s.outstanding = 0)

/-- Error-evolution relation for one step of the paginated controller: the
call log only grows, and the stored error either stays what it was or is
cleared by a step that invoked the producer. -/
def PagErrStep (s t : PagState) : Prop :=
  s.callLog.length ≤ t.callLog.length ∧
  (t.error = s.error ∨ (t.error = none ∧ s.callLog.length < t.callLog.length))

/-- Error-evolution relation for one step of the infinite controller. -/
def InfErrStep (s t : InfState) : Prop :=
  s.callLog.length ≤ t.callLog.length ∧
  (t.error = s.error ∨ (t.error = none ∧ s.callLog.length < t.callLog.length))

/-- Error-evolution relation for one step of the single-fetch controller. -/
def QErrStep (s t : QState) : Prop :=
  s.callCount ≤ t.callCount ∧
  (t.error = s.error ∨ (t.error = none ∧ s.callCount < t.callCount))

/-- How any synchronous non-settle operation of the paginated controller
relates a state to its successor: the liveness and enabled bits are
untouched and either (1) the request bookkeeping, error and loading flag
are untouched, or (2) the controller is disabled and only `isLoading` was
cleared, or (3) the operation started a fetch from an idle, mounted,
enabled state.  This is a preorder, and every callback, effect and render
pass of the model satisfies it. -/
def PagFetchLike (s t : PagState) : Prop :=
  t.isMounted = s.isMounted ∧ t.enabled = s.enabled ∧ t.data = s.data ∧
  ((t.outstanding = s.outstanding ∧ t.callLog = s.callLog ∧ t.error = s.error ∧
      t.isLoading = s.isLoading) ∨
   (s.enabled = false ∧ t.outstanding = s.outstanding ∧ t.callLog = s.callLog ∧
      t.error = s.error ∧ t.isLoading = false) ∨
   (s.outstanding = [] ∧ s.isMounted = true ∧ s.enabled = true ∧
    ∃ c, t.outstanding = [c] ∧ t.callLog = s.callLog ++ [c] ∧ t.error = none ∧
      t.isLoading = true))

/-- The analogous relation for the infinite controller; a started fetch is
appending or replacing, raising the corresponding flag. -/
def InfFetchLike (s t : InfState) : Prop :=
  t.isMounted = s.isMounted ∧ t.enabled = s.enabled ∧ t.idata = s.idata ∧
  t.pagesSinceReset = s.pagesSinceReset ∧
  ((t.outstanding = s.outstanding ∧ t.callLog = s.callLog ∧ t.error = s.error ∧
      t.isLoading = s.isLoading ∧ t.isLoadingMore = s.isLoadingMore) ∨
   (s.enabled = false ∧ t.outstanding = s.outstanding ∧ t.callLog = s.callLog ∧
      t.error = s.error ∧ t.isLoading = false ∧
      (t.isLoadingMore = s.isLoadingMore ∨ t.isLoadingMore = false)) ∨
   (s.outstanding = [] ∧ s.isMounted = true ∧ s.enabled = true ∧
    ∃ c, t.outstanding = [c] ∧ t.callLog = s.callLog ++ [c] ∧ t.error = none ∧
      ((c.append = true ∧ t.isLoadingMore = true ∧ t.isLoading = s.isLoading) ∨
       (c.append = false ∧ t.isLoading = true ∧ t.isLoadingMore = s.isLoadingMore))))

/-- A page-3 metadata value used in concrete runs below. -/
def metaPage3 : PageMeta :=
  { page := 3, limit := 10, pages := 4, total := 40, hasNextPage := true, hasPrevPage := true }

/-- A page-3 query result used in concrete runs below. -/
def resPage3 : PagResult := { items := [5, 6], meta := metaPage3 }

/-- A seeded infinite result whose metadata announces a next page. -/
def seededInfData : InfData :=
  { dataL := [7],
    meta := { page := 1, limit := 10, pages := 2, total := 12,
              hasNextPage := true, hasPrevPage := false },
    allData := [7] }

/-! ## Invariant machinery

Reusable lemmas: every non-settle operation of a controller satisfies the
fetch-like relation of its model; the relations are preorders; invariants
are transferred along them; settles and runs are handled directly. -/

theorem pagFetchLike_refl (s : PagState) : PagFetchLike s s := by
  refine ⟨rfl, rfl, rfl, Or.inl ⟨rfl, rfl, rfl, rfl⟩⟩

theorem pagFetchLike_trans {a b c : PagState} (h1 : PagFetchLike a b)
    (h2 : PagFetchLike b c) : PagFetchLike a c := by
  obtain ⟨m1, e1, d1, h1⟩ := h1
  obtain ⟨m2, e2, d2, h2⟩ := h2
  refine ⟨m2.trans m1, e2.trans e1, d2.trans d1, ?_⟩
  rcases h1 with h1 | h1 | h1 <;> rcases h2 with h2 | h2 | h2 <;>
    simp_all

theorem pagFetchStart_fetchLike (pg : Pg) (srt : Option Nat) (fl : Nat) (s : PagState) :
    PagFetchLike s (pagFetchStart pg srt fl s) := by
  unfold pagFetchStart
  cases hout : s.outstanding with
  | cons c rest =>
    rw [if_pos (by simp [hout])]
    exact pagFetchLike_refl s
  | nil =>
    by_cases h2 : s.isMounted = true
    · by_cases h3 : s.enabled = true
      · rw [if_neg (by simp [hout, h2, h3])]
        exact ⟨rfl, rfl, rfl, Or.inr (Or.inr ⟨hout, h2, h3,
          { pg := pg, sort := srt, filters := fl }, by simp [hout], rfl, rfl, rfl⟩)⟩
      · rw [if_pos (by simp [Bool.not_eq_true] at h3; simp [h3])]
        exact pagFetchLike_refl s
    · rw [if_pos (by simp [Bool.not_eq_true] at h2; simp [h2])]
      exact pagFetchLike_refl s

theorem pagFetchLike_update_inl {s t : PagState}
    (hm : t.isMounted = s.isMounted) (he : t.enabled = s.enabled)
    (hd : t.data = s.data) (ho : t.outstanding = s.outstanding)
    (hc : t.callLog = s.callLog) (herr : t.error = s.error)
    (hl : t.isLoading = s.isLoading) : PagFetchLike s t :=
  ⟨hm, he, hd, Or.inl ⟨ho, hc, herr, hl⟩⟩

theorem pagEffectFilters_fetchLike (pg : Pg) (srt : Option Nat) (fl : Nat) (s : PagState) :
    PagFetchLike s (pagEffectFilters pg srt fl s) := by
  unfold pagEffectFilters
  dsimp only
  split
  · exact pagFetchLike_refl s
  · split
    · exact pagFetchLike_update_inl rfl rfl rfl rfl rfl rfl rfl
    · split
      · exact pagFetchLike_trans
          (pagFetchLike_update_inl (t := { s with prevFilters := fl }) rfl rfl rfl rfl rfl rfl rfl)
          (pagFetchStart_fetchLike pg srt fl _)
      · exact pagFetchLike_update_inl rfl rfl rfl rfl rfl rfl rfl

theorem pagEffectPgSort_fetchLike (pg : Pg) (srt : Option Nat) (fl : Nat) (s : PagState) :
    PagFetchLike s (pagEffectPgSort pg srt fl s) := by
  unfold pagEffectPgSort
  dsimp only
  split
  · exact pagFetchLike_refl s
  · split
    · exact pagFetchLike_trans
        (pagFetchLike_update_inl (t := { s with prevPgOid := pg.oid, prevSort := srt })
          rfl rfl rfl rfl rfl rfl rfl)
        (pagFetchStart_fetchLike pg srt fl _)
    · exact pagFetchLike_update_inl rfl rfl rfl rfl rfl rfl rfl

theorem pagEffectEnabled_fetchLike (pg : Pg) (srt : Option Nat) (fl : Nat) (s : PagState) :
    PagFetchLike s (pagEffectEnabled pg srt fl s) := by
  unfold pagEffectEnabled
  split
  · exact pagFetchStart_fetchLike pg srt fl s
  · rename_i hc
    exact ⟨rfl, rfl, rfl, Or.inr (Or.inl ⟨by simpa using hc, rfl, rfl, rfl, rfl⟩)⟩

theorem pagRenderPass_fetchLike (s : PagState) : PagFetchLike s (pagRenderPass s) := by
  unfold pagRenderPass
  dsimp only
  split
  · exact pagFetchLike_refl s
  · split
    · exact pagFetchLike_refl s
    · exact pagFetchLike_trans
        (pagFetchLike_update_inl (t := { s with lastDeps := pagDepsOf s })
          rfl rfl rfl rfl rfl rfl rfl)
        (pagFetchLike_trans (pagEffectFilters_fetchLike _ _ _ _)
          (pagFetchLike_trans (pagEffectPgSort_fetchLike _ _ _ _)
            (pagEffectEnabled_fetchLike _ _ _ _)))

theorem pagStabilize_fetchLike : ∀ (n : Nat) (s : PagState),
    PagFetchLike s (pagStabilize n s) := by
  intro n
  induction n with
  | zero => intro s; exact pagFetchLike_refl s
  | succ k ih =>
    intro s
    show PagFetchLike s (if pagRenderPass s = s then s else pagStabilize k (pagRenderPass s))
    split
    · exact pagFetchLike_refl s
    · exact pagFetchLike_trans (pagRenderPass_fetchLike s) (ih _)

theorem pagMountEffects_fetchLike (s1 : PagState) :
    PagFetchLike s1 (pagMountEffects s1) := by
  unfold pagMountEffects
  dsimp only
  exact pagFetchLike_trans
    (pagFetchLike_update_inl (t := { s1 with lastDeps := pagDepsOf s1 })
      rfl rfl rfl rfl rfl rfl rfl)
    (pagFetchLike_trans (pagEffectFilters_fetchLike _ _ _ _)
      (pagFetchLike_trans (pagEffectPgSort_fetchLike _ _ _ _)
        (pagEffectEnabled_fetchLike _ _ _ _)))

theorem pagMount_fetchLike (s : PagState) :
    PagFetchLike { s with isMounted := true } (pagMount s) := by
  unfold pagMount
  dsimp only
  refine pagFetchLike_trans ?_ (pagMountEffects_fetchLike _)
  split
  · exact pagFetchStart_fetchLike _ _ _ _
  · rename_i hc
    exact ⟨rfl, rfl, rfl, Or.inr (Or.inl ⟨by simpa using hc, rfl, rfl, rfl, rfl⟩)⟩

theorem infFetchLike_refl (s : InfState) : InfFetchLike s s :=
  ⟨rfl, rfl, rfl, rfl, Or.inl ⟨rfl, rfl, rfl, rfl, rfl⟩⟩

theorem infFetchLike_update_inl {s t : InfState}
    (hm : t.isMounted = s.isMounted) (he : t.enabled = s.enabled)
    (hd : t.idata = s.idata) (hg : t.pagesSinceReset = s.pagesSinceReset)
    (ho : t.outstanding = s.outstanding) (hc : t.callLog = s.callLog)
    (herr : t.error = s.error) (hl : t.isLoading = s.isLoading)
    (hlm : t.isLoadingMore = s.isLoadingMore) : InfFetchLike s t :=
  ⟨hm, he, hd, hg, Or.inl ⟨ho, hc, herr, hl, hlm⟩⟩

theorem infFetchLike_trans {a b c : InfState} (h1 : InfFetchLike a b)
    (h2 : InfFetchLike b c) : InfFetchLike a c := by
  obtain ⟨m1, e1, d1, g1, k1⟩ := h1
  obtain ⟨m2, e2, d2, g2, k2⟩ := h2
  refine ⟨m2.trans m1, e2.trans e1, d2.trans d1, g2.trans g1, ?_⟩
  rcases k1 with ⟨o1, c1, r1, l1, lm1⟩ | ⟨en1, o1, c1, r1, l1, lm1⟩ |
    ⟨oe1, hm1, he1, cc1, o1, c1, r1, fl1⟩
  · rcases k2 with ⟨o2, c2, r2, l2, lm2⟩ | ⟨en2, o2, c2, r2, l2, lm2⟩ |
      ⟨oe2, hm2, he2, cc2, o2, c2, r2, fl2⟩
    · exact Or.inl ⟨o2.trans o1, c2.trans c1, r2.trans r1, l2.trans l1, lm2.trans lm1⟩
    · refine Or.inr (Or.inl ⟨e1.symm.trans en2, o2.trans o1, c2.trans c1, r2.trans r1, l2, ?_⟩)
      rcases lm2 with h | h
      · exact Or.inl (h.trans lm1)
      · exact Or.inr h
    · refine Or.inr (Or.inr ⟨o1.symm.trans oe2, m1.symm.trans hm2, e1.symm.trans he2,
        cc2, o2, by rw [c2, c1], r2, ?_⟩)
      rcases fl2 with ⟨ha, hb, hc2⟩ | ⟨ha, hb, hc2⟩
      · exact Or.inl ⟨ha, hb, hc2.trans l1⟩
      · exact Or.inr ⟨ha, hb, hc2.trans lm1⟩
  · rcases k2 with ⟨o2, c2, r2, l2, lm2⟩ | ⟨en2, o2, c2, r2, l2, lm2⟩ |
      ⟨oe2, hm2, he2, cc2, o2, c2, r2, fl2⟩
    · refine Or.inr (Or.inl ⟨en1, o2.trans o1, c2.trans c1, r2.trans r1, l2.trans l1, ?_⟩)
      rcases lm1 with h | h
      · exact Or.inl (lm2.trans h)
      · exact Or.inr (lm2.trans h)
    · refine Or.inr (Or.inl ⟨en1, o2.trans o1, c2.trans c1, r2.trans r1, l2, ?_⟩)
      rcases lm2 with h2 | h2
      · rcases lm1 with h | h
        · exact Or.inl (h2.trans h)
        · exact Or.inr (h2.trans h)
      · exact Or.inr h2
    · exact absurd (e1.symm.trans he2) (by simp [en1])
  · rcases k2 with ⟨o2, c2, r2, l2, lm2⟩ | ⟨en2, o2, c2, r2, l2, lm2⟩ |
      ⟨oe2, hm2, he2, cc2, o2, c2, r2, fl2⟩
    · refine Or.inr (Or.inr ⟨oe1, hm1, he1, cc1, o2.trans o1, c2.trans c1, r2.trans r1, ?_⟩)
      rcases fl1 with ⟨ha, hb, hc1⟩ | ⟨ha, hb, hc1⟩
      · exact Or.inl ⟨ha, lm2.trans hb, l2.trans hc1⟩
      · exact Or.inr ⟨ha, l2.trans hb, lm2.trans hc1⟩
    · exact absurd (e1.symm.trans en2) (by simp [he1])
    · exact absurd (o1.symm.trans oe2) (List.cons_ne_nil _ _)

theorem infFetchStart_fetchLike (page : Nat) (srt : Option Nat) (fl : Nat) (ap : Bool)
    (s : InfState) : InfFetchLike s (infFetchStart page srt fl ap s) := by
  unfold infFetchStart
  cases hout : s.outstanding with
  | cons c rest =>
    rw [if_pos (by simp [hout])]
    exact infFetchLike_refl s
  | nil =>
    by_cases h2 : s.isMounted = true
    · by_cases h3 : s.enabled = true
      · rw [if_neg (by simp [hout, h2, h3])]
        cases ap with
        | true =>
          exact ⟨rfl, rfl, rfl, rfl, Or.inr (Or.inr ⟨hout, h2, h3,
            { page := page, sort := srt, filters := fl, append := true },
            by simp [hout], rfl, rfl, Or.inl ⟨rfl, rfl, rfl⟩⟩)⟩
        | false =>
          exact ⟨rfl, rfl, rfl, rfl, Or.inr (Or.inr ⟨hout, h2, h3,
            { page := page, sort := srt, filters := fl, append := false },
            by simp [hout], rfl, rfl, Or.inr ⟨rfl, rfl, rfl⟩⟩)⟩
      · rw [if_pos (by simp [Bool.not_eq_true] at h3; simp [h3])]
        exact infFetchLike_refl s
    · rw [if_pos (by simp [Bool.not_eq_true] at h2; simp [h2])]
      exact infFetchLike_refl s

theorem infEffectFS_fetchLike (srt : Option Nat) (fl : Nat) (s : InfState) :
    InfFetchLike s (infEffectFS srt fl s) := by
  unfold infEffectFS
  dsimp only
  split
  · exact infFetchLike_refl s
  · split
    · refine infFetchLike_trans ?_ (infFetchStart_fetchLike _ _ _ _ _)
      exact infFetchLike_update_inl rfl rfl rfl rfl rfl rfl rfl rfl rfl
    · exact infFetchLike_update_inl rfl rfl rfl rfl rfl rfl rfl rfl rfl

theorem infEffectEnabled_fetchLike (srt : Option Nat) (fl : Nat) (s : InfState) :
    InfFetchLike s (infEffectEnabled srt fl s) := by
  unfold infEffectEnabled
  split
  · refine infFetchLike_trans ?_ (infFetchStart_fetchLike _ _ _ _ _)
    exact infFetchLike_update_inl rfl rfl rfl rfl rfl rfl rfl rfl rfl
  · rename_i hc
    exact ⟨rfl, rfl, rfl, rfl, Or.inr (Or.inl ⟨by simpa using hc, rfl, rfl, rfl, rfl,
      Or.inr rfl⟩)⟩

theorem infRenderPass_fetchLike (s : InfState) : InfFetchLike s (infRenderPass s) := by
  unfold infRenderPass
  dsimp only
  split
  · exact infFetchLike_refl s
  · split
    · exact infFetchLike_refl s
    · exact infFetchLike_trans
        (infFetchLike_update_inl (t := { s with lastDepsG := infDepsOf s })
          rfl rfl rfl rfl rfl rfl rfl rfl rfl)
        (infFetchLike_trans (infEffectFS_fetchLike _ _ _) (infEffectEnabled_fetchLike _ _ _))

theorem infStabilize_fetchLike : ∀ (n : Nat) (s : InfState),
    InfFetchLike s (infStabilize n s) := by
  intro n
  induction n with
  | zero => intro s; exact infFetchLike_refl s
  | succ k ih =>
    intro s
    show InfFetchLike s (if infRenderPass s = s then s else infStabilize k (infRenderPass s))
    split
    · exact infFetchLike_refl s
    · exact infFetchLike_trans (infRenderPass_fetchLike s) (ih _)

theorem infMountEffects_fetchLike (s1 : InfState) :
    InfFetchLike s1 (infMountEffects s1) := by
  unfold infMountEffects
  dsimp only
  exact infFetchLike_trans
    (infFetchLike_update_inl (t := { s1 with lastDepsG := infDepsOf s1 })
      rfl rfl rfl rfl rfl rfl rfl rfl rfl)
    (infFetchLike_trans (infEffectFS_fetchLike _ _ _) (infEffectEnabled_fetchLike _ _ _))

theorem infMount_fetchLike (s : InfState) :
    InfFetchLike { s with isMounted := true, currentPage := 1 } (infMount s) := by
  unfold infMount
  dsimp only
  refine infFetchLike_trans ?_ (infMountEffects_fetchLike _)
  split
  · exact infFetchStart_fetchLike _ _ _ _ _
  · rename_i hc
    exact ⟨rfl, rfl, rfl, rfl, Or.inr (Or.inl ⟨by simpa using hc, rfl, rfl, rfl, rfl,
      Or.inl rfl⟩)⟩

theorem infLoadMore_fetchLike (s : InfState) : InfFetchLike s (infLoadMore s) := by
  unfold infLoadMore
  split
  · exact infFetchLike_refl s
  · exact infFetchStart_fetchLike _ _ _ _ _

theorem infRefresh_fetchLike (s : InfState) : InfFetchLike s (infRefresh s) := by
  unfold infRefresh
  refine infFetchLike_trans ?_ (infFetchStart_fetchLike _ _ _ _ _)
  exact infFetchLike_update_inl rfl rfl rfl rfl rfl rfl rfl rfl rfl

theorem pagInvA_of_fetchLike {s t : PagState} (h : PagFetchLike s t) (hs : PagInvA s) :
    PagInvA t := by
  obtain ⟨m, e, d, k⟩ := h
  obtain ⟨h1, h2⟩ := hs
  rcases k with ⟨o, c, r, l⟩ | ⟨en, o, c, r, l⟩ | ⟨oe, hmm, hee, cc, o, c, r, l⟩
  · exact ⟨by rw [o]; exact h1, fun hne => by rw [o]; exact h2 (by rwa [r] at hne)⟩
  · exact ⟨by rw [o]; exact h1, fun hne => by rw [o]; exact h2 (by rwa [r] at hne)⟩
  · exact ⟨by rw [o]; simp, fun hne => absurd r (by simpa using hne)⟩

theorem pagLoadInv_of_fetchLike {s t : PagState} (h : PagFetchLike s t) (hs : pagLoadInv s) :
    pagLoadInv t := by
  obtain ⟨m, e, d, k⟩ := h
  obtain ⟨hm, hen, hlen, hiff⟩ := hs
  rcases k with ⟨o, c, r, l⟩ | ⟨en, o, c, r, l⟩ | ⟨oe, hmm, hee, cc, o, c, r, l⟩
  · exact ⟨m.trans hm, e.trans hen, by rw [o]; exact hlen, by rw [l, o]; exact hiff⟩
  · rw [hen] at en; exact absurd en (by simp)
  · exact ⟨m.trans hm, e.trans hen, by rw [o]; simp, by rw [l, o]; simp⟩

theorem pagErrStep_of_fetchLike {s t : PagState} (h : PagFetchLike s t) : PagErrStep s t := by
  obtain ⟨m, e, d, k⟩ := h
  rcases k with ⟨o, c, r, l⟩ | ⟨en, o, c, r, l⟩ | ⟨oe, hmm, hee, cc, o, c, r, l⟩
  · exact ⟨by rw [c], Or.inl r⟩
  · exact ⟨by rw [c], Or.inl r⟩
  · exact ⟨by rw [c]; simp, Or.inr ⟨r, by rw [c]; simp⟩⟩

theorem pagErrStep_refl (s : PagState) : PagErrStep s s := ⟨le_rfl, Or.inl rfl⟩

theorem pagErrStep_trans {a b c : PagState} (h1 : PagErrStep a b) (h2 : PagErrStep b c) :
    PagErrStep a c := by
  obtain ⟨n1, k1⟩ := h1
  obtain ⟨n2, k2⟩ := h2
  refine ⟨n1.trans n2, ?_⟩
  rcases k1 with k1 | ⟨k1, k1len⟩ <;> rcases k2 with k2 | ⟨k2, k2len⟩
  · exact Or.inl (k2.trans k1)
  · exact Or.inr ⟨k2, by omega⟩
  · exact Or.inr ⟨k2.trans k1, by omega⟩
  · exact Or.inr ⟨k2, by omega⟩

theorem infInvA_of_fetchLike {s t : InfState} (h : InfFetchLike s t) (hs : InfInvA s) :
    InfInvA t := by
  obtain ⟨m, e, d, g, k⟩ := h
  obtain ⟨h1, h2, h3⟩ := hs
  rcases k with ⟨o, c, r, l, lm⟩ | ⟨en, o, c, r, l, lm⟩ | ⟨oe, hmm, hee, cc, o, c, r, fl⟩
  · refine ⟨by rw [o]; exact h1, fun hne => by rw [o]; exact h2 (by rwa [r] at hne), ?_⟩
    intro hdis
    rw [e] at hdis
    exact ⟨r.trans (h3 hdis).1, o.trans (h3 hdis).2⟩
  · refine ⟨by rw [o]; exact h1, fun hne => by rw [o]; exact h2 (by rwa [r] at hne), ?_⟩
    intro hdis
    exact ⟨r.trans (h3 en).1, o.trans (h3 en).2⟩
  · refine ⟨by rw [o]; simp, fun hne => absurd r (by simpa using hne), ?_⟩
    intro hdis
    rw [e] at hdis
    rw [hdis] at hee
    exact absurd hee (by simp)

theorem infLoadInv_of_fetchLike {s t : InfState} (h : InfFetchLike s t) (hs : infLoadInv s) :
    infLoadInv t := by
  obtain ⟨m, e, d, g, k⟩ := h
  obtain ⟨hm, hen, hlen, hl, hlm⟩ := hs
  rcases k with ⟨o, c, r, l, lm⟩ | ⟨en, o, c, r, l, lm⟩ | ⟨oe, hmm, hee, cc, o, c, r, fl⟩
  · exact ⟨m.trans hm, e.trans hen, by rw [o]; exact hlen, by rw [l, o]; exact hl,
      by rw [lm, o]; exact hlm⟩
  · rw [hen] at en; exact absurd en (by simp)
  · have hl0 : s.isLoading = false := by rw [hl, oe]; rfl
    have hlm0 : s.isLoadingMore = false := by rw [hlm, oe]; rfl
    rcases fl with ⟨hap, hbm, hbl⟩ | ⟨hap, hbl, hbm⟩
    · refine ⟨m.trans hm, e.trans hen, by rw [o]; simp, ?_, ?_⟩
      · rw [hbl, hl0, o]; simp [hap]
      · rw [hbm, o]; simp [hap]
    · refine ⟨m.trans hm, e.trans hen, by rw [o]; simp, ?_, ?_⟩
      · rw [hbl, o]; simp [hap]
      · rw [hbm, hlm0, o]; simp [hap]

theorem infErrStep_of_fetchLike {s t : InfState} (h : InfFetchLike s t) : InfErrStep s t := by
  obtain ⟨m, e, d, g, k⟩ := h
  rcases k with ⟨o, c, r, l, lm⟩ | ⟨en, o, c, r, l, lm⟩ | ⟨oe, hmm, hee, cc, o, c, r, fl⟩
  · exact ⟨by rw [c], Or.inl r⟩
  · exact ⟨by rw [c], Or.inl r⟩
  · exact ⟨by rw [c]; simp, Or.inr ⟨r, by rw [c]; simp⟩⟩

theorem infErrStep_refl (s : InfState) : InfErrStep s s := ⟨le_rfl, Or.inl rfl⟩

theorem infErrStep_trans {a b c : InfState} (h1 : InfErrStep a b) (h2 : InfErrStep b c) :
    InfErrStep a c := by
  obtain ⟨n1, k1⟩ := h1
  obtain ⟨n2, k2⟩ := h2
  refine ⟨n1.trans n2, ?_⟩
  rcases k1 with k1 | ⟨k1, k1len⟩ <;> rcases k2 with k2 | ⟨k2, k2len⟩
  · exact Or.inl (k2.trans k1)
  · exact Or.inr ⟨k2, by omega⟩
  · exact Or.inr ⟨k2.trans k1, by omega⟩
  · exact Or.inr ⟨k2, by omega⟩

theorem infGhost_of_fetchLike {s t : InfState} (h : InfFetchLike s t)
    (hs : s.idata.allData = s.pagesSinceReset.flatten) :
    t.idata.allData = t.pagesSinceReset.flatten := by
  obtain ⟨m, e, d, g, k⟩ := h
  rw [d, g]; exact hs

theorem pagSettleOk_invA (v : Option PagResult) (s : PagState) (h : PagInvA s) :
    PagInvA (pagSettleOk v s) := by
  obtain ⟨h1, h2⟩ := h
  cases hout : s.outstanding with
  | nil =>
    simp only [pagSettleOk, hout]
    exact ⟨h1, h2⟩
  | cons c rest =>
    have hrest : rest = [] := by
      rw [hout, List.length_cons] at h1
      exact List.length_eq_zero.mp (by omega)
    by_cases hm : s.isMounted = true <;>
      simp [pagSettleOk, PagInvA, hout, hrest, hm]

theorem pagSettleErr_invA (e : JSVal) (s : PagState) (h : PagInvA s) :
    PagInvA (pagSettleErr e s) := by
  obtain ⟨h1, h2⟩ := h
  cases hout : s.outstanding with
  | nil =>
    simp only [pagSettleErr, hout]
    exact ⟨h1, h2⟩
  | cons c rest =>
    have hrest : rest = [] := by
      rw [hout, List.length_cons] at h1
      exact List.length_eq_zero.mp (by omega)
    by_cases hm : s.isMounted = true <;>
      simp [pagSettleErr, PagInvA, hout, hrest, hm]

theorem pagSettleOk_loadInv (v : Option PagResult) (s : PagState) (h : pagLoadInv s) :
    pagLoadInv (pagSettleOk v s) := by
  obtain ⟨hm, hen, hlen, hiff⟩ := h
  cases hout : s.outstanding with
  | nil =>
    simp only [pagSettleOk, hout]
    exact ⟨hm, hen, hlen, hiff⟩
  | cons c rest =>
    have hrest : rest = [] := by
      rw [hout, List.length_cons] at hlen
      exact List.length_eq_zero.mp (by omega)
    simp [pagSettleOk, pagLoadInv, hout, hrest, hm, hen]

theorem pagSettleErr_loadInv (e : JSVal) (s : PagState) (h : pagLoadInv s) :
    pagLoadInv (pagSettleErr e s) := by
  obtain ⟨hm, hen, hlen, hiff⟩ := h
  cases hout : s.outstanding with
  | nil =>
    simp only [pagSettleErr, hout]
    exact ⟨hm, hen, hlen, hiff⟩
  | cons c rest =>
    have hrest : rest = [] := by
      rw [hout, List.length_cons] at hlen
      exact List.length_eq_zero.mp (by omega)
    simp [pagSettleErr, pagLoadInv, hout, hrest, hm, hen]

theorem pagSettleOk_errStep (v : Option PagResult) (s : PagState) :
    PagErrStep s (pagSettleOk v s) := by
  cases hout : s.outstanding with
  | nil =>
    simp only [pagSettleOk, hout]
    exact pagErrStep_refl s
  | cons c rest =>
    by_cases hm : s.isMounted = true <;>
      simp [pagSettleOk, PagErrStep, hout, hm]

theorem pagSettleErr_errStep (e : JSVal) (s : PagState) (hinv : PagInvA s) (m : String)
    (hsome : s.error = some m) : PagErrStep s (pagSettleErr e s) := by
  have hout : s.outstanding = [] := hinv.2 (by rw [hsome]; simp)
  simp only [pagSettleErr, hout]
  exact pagErrStep_refl s

theorem pagStep_invA (ev : PagEv) (s : PagState) (h : PagInvA s) : PagInvA (pagStep ev s) := by
  cases ev with
  | mount =>
    exact pagInvA_of_fetchLike (pagStabilize_fetchLike 6 _)
      (pagInvA_of_fetchLike (pagMount_fetchLike s) h)
  | setFilters v =>
    by_cases hm : s.isMounted = true
    · simp only [pagStep, if_pos hm]
      exact pagInvA_of_fetchLike (pagStabilize_fetchLike 6 _) h
    · simp only [pagStep, if_neg hm]
      exact h
  | setPagination page limit =>
    by_cases hm : s.isMounted = true
    · simp only [pagStep, if_pos hm]
      exact pagInvA_of_fetchLike (pagStabilize_fetchLike 6 _) h
    · simp only [pagStep, if_neg hm]
      exact h
  | setSort v =>
    by_cases hm : s.isMounted = true
    · simp only [pagStep, if_pos hm]
      exact pagInvA_of_fetchLike (pagStabilize_fetchLike 6 _) h
    · simp only [pagStep, if_neg hm]
      exact h
  | debounce v =>
    by_cases hm : s.isMounted = true
    · simp only [pagStep, if_pos hm]
      exact pagInvA_of_fetchLike (pagStabilize_fetchLike 6 _) h
    · simp only [pagStep, if_neg hm]
      exact h
  | refresh =>
    simp only [pagStep, pagRefresh]
    exact pagInvA_of_fetchLike (pagStabilize_fetchLike 6 _)
      (pagInvA_of_fetchLike (pagFetchStart_fetchLike _ _ _ _) h)
  | settleOk v =>
    simp only [pagStep]
    exact pagInvA_of_fetchLike (pagStabilize_fetchLike 6 _) (pagSettleOk_invA v s h)
  | settleErr e =>
    simp only [pagStep]
    exact pagInvA_of_fetchLike (pagStabilize_fetchLike 6 _) (pagSettleErr_invA e s h)
  | unmount =>
    simp only [pagStep]
    exact h

theorem pagStep_loadInv (ev : PagEv) (s : PagState) (hq : ev ≠ PagEv.unmount)
    (h : pagLoadInv s) : pagLoadInv (pagStep ev s) := by
  cases ev with
  | mount =>
    refine pagLoadInv_of_fetchLike (pagStabilize_fetchLike 6 _)
      (pagLoadInv_of_fetchLike (pagMount_fetchLike s) ?_)
    exact ⟨rfl, h.2.1, h.2.2.1, h.2.2.2⟩
  | setFilters v =>
    simp only [pagStep, if_pos h.1]
    exact pagLoadInv_of_fetchLike (pagStabilize_fetchLike 6 _) h
  | setPagination page limit =>
    simp only [pagStep, if_pos h.1]
    exact pagLoadInv_of_fetchLike (pagStabilize_fetchLike 6 _) h
  | setSort v =>
    simp only [pagStep, if_pos h.1]
    exact pagLoadInv_of_fetchLike (pagStabilize_fetchLike 6 _) h
  | debounce v =>
    simp only [pagStep, if_pos h.1]
    exact pagLoadInv_of_fetchLike (pagStabilize_fetchLike 6 _) h
  | refresh =>
    simp only [pagStep, pagRefresh]
    exact pagLoadInv_of_fetchLike (pagStabilize_fetchLike 6 _)
      (pagLoadInv_of_fetchLike (pagFetchStart_fetchLike _ _ _ _) h)
  | settleOk v =>
    simp only [pagStep]
    exact pagLoadInv_of_fetchLike (pagStabilize_fetchLike 6 _) (pagSettleOk_loadInv v s h)
  | settleErr e =>
    simp only [pagStep]
    exact pagLoadInv_of_fetchLike (pagStabilize_fetchLike 6 _) (pagSettleErr_loadInv e s h)
  | unmount => exact absurd rfl hq

theorem pagErrStep_eq {s t : PagState} (hc : t.callLog = s.callLog)
    (he : t.error = s.error) : PagErrStep s t :=
  ⟨le_of_eq (by rw [hc]), Or.inl he⟩

theorem pagStep_errStep (ev : PagEv) (s : PagState) (hinv : PagInvA s) (m : String)
    (hsome : s.error = some m) : PagErrStep s (pagStep ev s) := by
  cases ev with
  | mount =>
    refine pagErrStep_trans ?_ (pagErrStep_of_fetchLike (pagStabilize_fetchLike 6 _))
    refine pagErrStep_trans ?_ (pagErrStep_of_fetchLike (pagMount_fetchLike s))
    exact pagErrStep_eq rfl rfl
  | setFilters v =>
    by_cases hm : s.isMounted = true
    · simp only [pagStep, if_pos hm]
      refine pagErrStep_trans ?_ (pagErrStep_of_fetchLike (pagStabilize_fetchLike 6 _))
      exact pagErrStep_eq rfl rfl
    · simp only [pagStep, if_neg hm]
      exact pagErrStep_refl s
  | setPagination page limit =>
    by_cases hm : s.isMounted = true
    · simp only [pagStep, if_pos hm]
      refine pagErrStep_trans ?_ (pagErrStep_of_fetchLike (pagStabilize_fetchLike 6 _))
      exact pagErrStep_eq rfl rfl
    · simp only [pagStep, if_neg hm]
      exact pagErrStep_refl s
  | setSort v =>
    by_cases hm : s.isMounted = true
    · simp only [pagStep, if_pos hm]
      refine pagErrStep_trans ?_ (pagErrStep_of_fetchLike (pagStabilize_fetchLike 6 _))
      exact pagErrStep_eq rfl rfl
    · simp only [pagStep, if_neg hm]
      exact pagErrStep_refl s
  | debounce v =>
    by_cases hm : s.isMounted = true
    · simp only [pagStep, if_pos hm]
      refine pagErrStep_trans ?_ (pagErrStep_of_fetchLike (pagStabilize_fetchLike 6 _))
      exact pagErrStep_eq rfl rfl
    · simp only [pagStep, if_neg hm]
      exact pagErrStep_refl s
  | refresh =>
    simp only [pagStep, pagRefresh]
    refine pagErrStep_trans ?_ (pagErrStep_of_fetchLike (pagStabilize_fetchLike 6 _))
    exact pagErrStep_of_fetchLike (pagFetchStart_fetchLike _ _ _ _)
  | settleOk v =>
    simp only [pagStep]
    refine pagErrStep_trans ?_ (pagErrStep_of_fetchLike (pagStabilize_fetchLike 6 _))
    exact pagSettleOk_errStep v s
  | settleErr e =>
    simp only [pagStep]
    refine pagErrStep_trans ?_ (pagErrStep_of_fetchLike (pagStabilize_fetchLike 6 _))
    exact pagSettleErr_errStep e s hinv m hsome
  | unmount =>
    simp only [pagStep]
    exact pagErrStep_eq rfl rfl

theorem pagRun_preserve (P : PagState → Prop)
    (hstep : ∀ ev s, P s → P (pagStep ev s)) :
    ∀ (evs : List PagEv) (s : PagState), P s → P (pagRun s evs) := by
  intro evs
  induction evs with
  | nil => intro s h; exact h
  | cons e es ih =>
    intro s h
    exact ih (pagStep e s) (hstep e s h)

theorem pagRun_preserve_cond (P : PagState → Prop) (Q : PagEv → Prop)
    (hstep : ∀ ev s, Q ev → P s → P (pagStep ev s)) :
    ∀ (evs : List PagEv), (∀ e ∈ evs, Q e) → ∀ s, P s → P (pagRun s evs) := by
  intro evs
  induction evs with
  | nil => intro _ s h; exact h
  | cons e es ih =>
    intro hq s h
    exact ih (fun x hx => hq x (List.mem_cons_of_mem e hx)) _
      (hstep e s (hq e (List.mem_cons_self e es)) h)

theorem infSettleOk_invA (v : PagResult) (s : InfState) (h : InfInvA s) :
    InfInvA (infSettleOk v s) := by
  obtain ⟨h1, h2, h3⟩ := h
  cases hout : s.outstanding with
  | nil =>
    simp only [infSettleOk, hout]
    exact ⟨h1, h2, h3⟩
  | cons c rest =>
    have hrest : rest = [] := by
      rw [hout, List.length_cons] at h1
      exact List.length_eq_zero.mp (by omega)
    have hen : s.enabled = true := by
      by_contra hq
      have := (h3 (by simpa using hq)).2
      rw [hout] at this
      exact List.cons_ne_nil c rest this
    by_cases hm : s.isMounted = true <;>
      simp [infSettleOk, InfInvA, hout, hrest, hm, hen]

theorem infSettleErr_invA (e : JSVal) (s : InfState) (h : InfInvA s) :
    InfInvA (infSettleErr e s) := by
  obtain ⟨h1, h2, h3⟩ := h
  cases hout : s.outstanding with
  | nil =>
    simp only [infSettleErr, hout]
    exact ⟨h1, h2, h3⟩
  | cons c rest =>
    have hrest : rest = [] := by
      rw [hout, List.length_cons] at h1
      exact List.length_eq_zero.mp (by omega)
    have hen : s.enabled = true := by
      by_contra hq
      have := (h3 (by simpa using hq)).2
      rw [hout] at this
      exact List.cons_ne_nil c rest this
    by_cases hm : s.isMounted = true <;>
      simp [infSettleErr, InfInvA, hout, hrest, hm, hen]

theorem infSettleOk_loadInv (v : PagResult) (s : InfState) (h : infLoadInv s) :
    infLoadInv (infSettleOk v s) := by
  obtain ⟨hm, hen, hlen, hl, hlm⟩ := h
  cases hout : s.outstanding with
  | nil =>
    simp only [infSettleOk, hout]
    exact ⟨hm, hen, hlen, hl, hlm⟩
  | cons c rest =>
    have hrest : rest = [] := by
      rw [hout, List.length_cons] at hlen
      exact List.length_eq_zero.mp (by omega)
    simp [infSettleOk, infLoadInv, hout, hrest, hm, hen]

theorem infSettleErr_loadInv (e : JSVal) (s : InfState) (h : infLoadInv s) :
    infLoadInv (infSettleErr e s) := by
  obtain ⟨hm, hen, hlen, hl, hlm⟩ := h
  cases hout : s.outstanding with
  | nil =>
    simp only [infSettleErr, hout]
    exact ⟨hm, hen, hlen, hl, hlm⟩
  | cons c rest =>
    have hrest : rest = [] := by
      rw [hout, List.length_cons] at hlen
      exact List.length_eq_zero.mp (by omega)
    simp [infSettleErr, infLoadInv, hout, hrest, hm, hen]

theorem infErrStep_eq {s t : InfState} (hc : t.callLog = s.callLog)
    (he : t.error = s.error) : InfErrStep s t :=
  ⟨le_of_eq (by rw [hc]), Or.inl he⟩

theorem infSettleOk_errStep (v : PagResult) (s : InfState) :
    InfErrStep s (infSettleOk v s) := by
  cases hout : s.outstanding with
  | nil =>
    simp only [infSettleOk, hout]
    exact infErrStep_refl s
  | cons c rest =>
    by_cases hm : s.isMounted = true <;>
      simp [infSettleOk, InfErrStep, hout, hm]

theorem infSettleErr_errStep (e : JSVal) (s : InfState) (hinv : InfInvA s) (m : String)
    (hsome : s.error = some m) : InfErrStep s (infSettleErr e s) := by
  have hout : s.outstanding = [] := hinv.2.1 (by rw [hsome]; simp)
  simp only [infSettleErr, hout]
  exact infErrStep_refl s

theorem infSettleOk_ghost (v : PagResult) (s : InfState)
    (h : s.idata.allData = s.pagesSinceReset.flatten) :
    (infSettleOk v s).idata.allData = (infSettleOk v s).pagesSinceReset.flatten := by
  cases hout : s.outstanding with
  | nil =>
    simp only [infSettleOk, hout]
    exact h
  | cons c rest =>
    by_cases hm : s.isMounted = true
    · cases hap : c.append <;> simp [infSettleOk, hout, hm, hap, h]
    · simp [infSettleOk, hout, hm, h]

theorem infSettleErr_ghost (e : JSVal) (s : InfState)
    (h : s.idata.allData = s.pagesSinceReset.flatten) :
    (infSettleErr e s).idata.allData = (infSettleErr e s).pagesSinceReset.flatten := by
  cases hout : s.outstanding with
  | nil =>
    simp only [infSettleErr, hout]
    exact h
  | cons c rest =>
    by_cases hm : s.isMounted = true <;> simp [infSettleErr, hout, hm, h]

theorem infReset_invA (s : InfState) (h : InfInvA s) : InfInvA (infReset s) := by
  unfold infReset
  dsimp only
  by_cases hm : s.isMounted = true
  · rw [if_pos hm]
    split
    · refine infInvA_of_fetchLike (infFetchStart_fetchLike _ _ _ _ _) ?_
      exact ⟨h.1, fun hne => absurd rfl hne, fun hdis => ⟨rfl, (h.2.2 hdis).2⟩⟩
    · exact ⟨h.1, fun hne => absurd rfl hne, fun hdis => ⟨rfl, (h.2.2 hdis).2⟩⟩
  · rw [if_neg hm]
    split
    · exact infInvA_of_fetchLike (infFetchStart_fetchLike _ _ _ _ _) h
    · exact h

theorem infReset_loadInv (s : InfState) (h : infLoadInv s) : infLoadInv (infReset s) := by
  unfold infReset
  dsimp only
  rw [if_pos h.1, if_pos h.2.1]
  refine infLoadInv_of_fetchLike (infFetchStart_fetchLike _ _ _ _ _) ?_
  exact ⟨h.1, h.2.1, h.2.2.1, h.2.2.2.1, h.2.2.2.2⟩

theorem infReset_errStep (s : InfState) (hinv : InfInvA s) (m : String)
    (hsome : s.error = some m) : InfErrStep s (infReset s) := by
  unfold infReset
  dsimp only
  by_cases hm : s.isMounted = true
  · rw [if_pos hm]
    have hen : s.enabled = true := by
      by_contra hq
      have := (hinv.2.2 (by simpa using hq)).1
      rw [hsome] at this
      exact absurd this (by simp)
    have hout : s.outstanding = [] := hinv.2.1 (by rw [hsome]; simp)
    rw [if_pos hen]
    unfold infFetchStart
    rw [if_neg (by simp [hout, hm, hen])]
    exact ⟨by simp, Or.inr ⟨rfl, by simp⟩⟩
  · rw [if_neg hm]
    split
    · refine infErrStep_trans (infErrStep_eq rfl rfl) ?_
      exact infErrStep_of_fetchLike (infFetchStart_fetchLike _ _ _ _ _)
    · exact infErrStep_eq rfl rfl

theorem infReset_ghost (s : InfState)
    (h : s.idata.allData = s.pagesSinceReset.flatten) :
    (infReset s).idata.allData = (infReset s).pagesSinceReset.flatten := by
  unfold infReset
  dsimp only
  by_cases hm : s.isMounted = true
  · rw [if_pos hm]
    split
    · refine infGhost_of_fetchLike (infFetchStart_fetchLike _ _ _ _ _) ?_
      simp [infEmptyData]
    · simp [infEmptyData]
  · rw [if_neg hm]
    split
    · exact infGhost_of_fetchLike (infFetchStart_fetchLike _ _ _ _ _) h
    · exact h

theorem infStep_invA (ev : InfEv) (s : InfState) (h : InfInvA s) : InfInvA (infStep ev s) := by
  cases ev with
  | mount =>
    exact infInvA_of_fetchLike (infStabilize_fetchLike 6 _)
      (infInvA_of_fetchLike (infMount_fetchLike s) h)
  | setFilters v =>
    by_cases hm : s.isMounted = true
    · simp only [infStep, if_pos hm]
      exact infInvA_of_fetchLike (infStabilize_fetchLike 6 _) h
    · simp only [infStep, if_neg hm]
      exact h
  | setSort v =>
    by_cases hm : s.isMounted = true
    · simp only [infStep, if_pos hm]
      exact infInvA_of_fetchLike (infStabilize_fetchLike 6 _) h
    · simp only [infStep, if_neg hm]
      exact h
  | debounce v =>
    by_cases hm : s.isMounted = true
    · simp only [infStep, if_pos hm]
      exact infInvA_of_fetchLike (infStabilize_fetchLike 6 _) h
    · simp only [infStep, if_neg hm]
      exact h
  | loadMore =>
    simp only [infStep]
    exact infInvA_of_fetchLike (infStabilize_fetchLike 6 _)
      (infInvA_of_fetchLike (infLoadMore_fetchLike s) h)
  | refresh =>
    simp only [infStep]
    exact infInvA_of_fetchLike (infStabilize_fetchLike 6 _)
      (infInvA_of_fetchLike (infRefresh_fetchLike s) h)
  | reset =>
    simp only [infStep]
    exact infInvA_of_fetchLike (infStabilize_fetchLike 6 _) (infReset_invA s h)
  | settleOk v =>
    simp only [infStep]
    exact infInvA_of_fetchLike (infStabilize_fetchLike 6 _) (infSettleOk_invA v s h)
  | settleErr e =>
    simp only [infStep]
    exact infInvA_of_fetchLike (infStabilize_fetchLike 6 _) (infSettleErr_invA e s h)
  | unmount =>
    simp only [infStep]
    exact h

theorem infStep_loadInv (ev : InfEv) (s : InfState) (hq : ev ≠ InfEv.unmount)
    (h : infLoadInv s) : infLoadInv (infStep ev s) := by
  cases ev with
  | mount =>
    refine infLoadInv_of_fetchLike (infStabilize_fetchLike 6 _)
      (infLoadInv_of_fetchLike (infMount_fetchLike s) ?_)
    exact ⟨rfl, h.2.1, h.2.2.1, h.2.2.2.1, h.2.2.2.2⟩
  | setFilters v =>
    simp only [infStep, if_pos h.1]
    exact infLoadInv_of_fetchLike (infStabilize_fetchLike 6 _) h
  | setSort v =>
    simp only [infStep, if_pos h.1]
    exact infLoadInv_of_fetchLike (infStabilize_fetchLike 6 _) h
  | debounce v =>
    simp only [infStep, if_pos h.1]
    exact infLoadInv_of_fetchLike (infStabilize_fetchLike 6 _) h
  | loadMore =>
    simp only [infStep]
    exact infLoadInv_of_fetchLike (infStabilize_fetchLike 6 _)
      (infLoadInv_of_fetchLike (infLoadMore_fetchLike s) h)
  | refresh =>
    simp only [infStep]
    exact infLoadInv_of_fetchLike (infStabilize_fetchLike 6 _)
      (infLoadInv_of_fetchLike (infRefresh_fetchLike s) h)
  | reset =>
    simp only [infStep]
    exact infLoadInv_of_fetchLike (infStabilize_fetchLike 6 _) (infReset_loadInv s h)
  | settleOk v =>
    simp only [infStep]
    exact infLoadInv_of_fetchLike (infStabilize_fetchLike 6 _) (infSettleOk_loadInv v s h)
  | settleErr e =>
    simp only [infStep]
    exact infLoadInv_of_fetchLike (infStabilize_fetchLike 6 _) (infSettleErr_loadInv e s h)
  | unmount => exact absurd rfl hq

theorem infStep_errStep (ev : InfEv) (s : InfState) (hinv : InfInvA s) (m : String)
    (hsome : s.error = some m) : InfErrStep s (infStep ev s) := by
  cases ev with
  | mount =>
    refine infErrStep_trans ?_ (infErrStep_of_fetchLike (infStabilize_fetchLike 6 _))
    refine infErrStep_trans ?_ (infErrStep_of_fetchLike (infMount_fetchLike s))
    exact infErrStep_eq rfl rfl
  | setFilters v =>
    by_cases hm : s.isMounted = true
    · simp only [infStep, if_pos hm]
      refine infErrStep_trans ?_ (infErrStep_of_fetchLike (infStabilize_fetchLike 6 _))
      exact infErrStep_eq rfl rfl
    · simp only [infStep, if_neg hm]
      exact infErrStep_refl s
  | setSort v =>
    by_cases hm : s.isMounted = true
    · simp only [infStep, if_pos hm]
      refine infErrStep_trans ?_ (infErrStep_of_fetchLike (infStabilize_fetchLike 6 _))
      exact infErrStep_eq rfl rfl
    · simp only [infStep, if_neg hm]
      exact infErrStep_refl s
  | debounce v =>
    by_cases hm : s.isMounted = true
    · simp only [infStep, if_pos hm]
      refine infErrStep_trans ?_ (infErrStep_of_fetchLike (infStabilize_fetchLike 6 _))
      exact infErrStep_eq rfl rfl
    · simp only [infStep, if_neg hm]
      exact infErrStep_refl s
  | loadMore =>
    simp only [infStep]
    refine infErrStep_trans ?_ (infErrStep_of_fetchLike (infStabilize_fetchLike 6 _))
    exact infErrStep_of_fetchLike (infLoadMore_fetchLike s)
  | refresh =>
    simp only [infStep]
    refine infErrStep_trans ?_ (infErrStep_of_fetchLike (infStabilize_fetchLike 6 _))
    exact infErrStep_of_fetchLike (infRefresh_fetchLike s)
  | reset =>
    simp only [infStep]
    refine infErrStep_trans ?_ (infErrStep_of_fetchLike (infStabilize_fetchLike 6 _))
    exact infReset_errStep s hinv m hsome
  | settleOk v =>
    simp only [infStep]
    refine infErrStep_trans ?_ (infErrStep_of_fetchLike (infStabilize_fetchLike 6 _))
    exact infSettleOk_errStep v s
  | settleErr e =>
    simp only [infStep]
    refine infErrStep_trans ?_ (infErrStep_of_fetchLike (infStabilize_fetchLike 6 _))
    exact infSettleErr_errStep e s hinv m hsome
  | unmount =>
    simp only [infStep]
    exact infErrStep_eq rfl rfl

theorem infStep_ghost (ev : InfEv) (s : InfState)
    (h : s.idata.allData = s.pagesSinceReset.flatten) :
    (infStep ev s).idata.allData = (infStep ev s).pagesSinceReset.flatten := by
  cases ev with
  | mount =>
    refine infGhost_of_fetchLike (infStabilize_fetchLike 6 _)
      (infGhost_of_fetchLike (infMount_fetchLike s) h)
  | setFilters v =>
    by_cases hm : s.isMounted = true
    · simp only [infStep, if_pos hm]
      exact infGhost_of_fetchLike (infStabilize_fetchLike 6 _) h
    · simp only [infStep, if_neg hm]
      exact h
  | setSort v =>
    by_cases hm : s.isMounted = true
    · simp only [infStep, if_pos hm]
      exact infGhost_of_fetchLike (infStabilize_fetchLike 6 _) h
    · simp only [infStep, if_neg hm]
      exact h
  | debounce v =>
    by_cases hm : s.isMounted = true
    · simp only [infStep, if_pos hm]
      exact infGhost_of_fetchLike (infStabilize_fetchLike 6 _) h
    · simp only [infStep, if_neg hm]
      exact h
  | loadMore =>
    simp only [infStep]
    exact infGhost_of_fetchLike (infStabilize_fetchLike 6 _)
      (infGhost_of_fetchLike (infLoadMore_fetchLike s) h)
  | refresh =>
    simp only [infStep]
    exact infGhost_of_fetchLike (infStabilize_fetchLike 6 _)
      (infGhost_of_fetchLike (infRefresh_fetchLike s) h)
  | reset =>
    simp only [infStep]
    exact infGhost_of_fetchLike (infStabilize_fetchLike 6 _) (infReset_ghost s h)
  | settleOk v =>
    simp only [infStep]
    exact infGhost_of_fetchLike (infStabilize_fetchLike 6 _) (infSettleOk_ghost v s h)
  | settleErr e =>
    simp only [infStep]
    exact infGhost_of_fetchLike (infStabilize_fetchLike 6 _) (infSettleErr_ghost e s h)
  | unmount =>
    simp only [infStep]
    exact h

theorem infRun_preserve (P : InfState → Prop)
    (hstep : ∀ ev s, P s → P (infStep ev s)) :
    ∀ (evs : List InfEv) (s : InfState), P s → P (infRun s evs) := by
  intro evs
  induction evs with
  | nil => intro s h; exact h
  | cons e es ih =>
    intro s h
    exact ih (infStep e s) (hstep e s h)

theorem infRun_preserve_cond (P : InfState → Prop) (Q : InfEv → Prop)
    (hstep : ∀ ev s, Q ev → P s → P (infStep ev s)) :
    ∀ (evs : List InfEv), (∀ e ∈ evs, Q e) → ∀ s, P s → P (infRun s evs) := by
  intro evs
  induction evs with
  | nil => intro _ s h; exact h
  | cons e es ih =>
    intro hq s h
    exact ih (fun x hx => hq x (List.mem_cons_of_mem e hx)) _
      (hstep e s (hq e (List.mem_cons_self e es)) h)

theorem qFetchStart_cases (s : QState) :
    qFetchStart s = s ∨
    (s.isMounted = true ∧ (s.guarded = true → s.outstanding = 0) ∧
     qFetchStart s = { s with isLoading := true, error := none,
                              outstanding := s.outstanding + 1,
                              callCount := s.callCount + 1 }) := by
  unfold qFetchStart
  by_cases h1 : s.isMounted = true
  · by_cases h2 : (s.guarded && decide (s.outstanding ≠ 0)) = true
    · rw [if_neg (by simp [h1]), if_pos h2]
      exact Or.inl rfl
    · rw [if_neg (by simp [h1]), if_neg h2]
      refine Or.inr ⟨h1, ?_, rfl⟩
      intro hg
      rw [hg] at h2
      simpa using h2
  · rw [if_pos (by simp [Bool.not_eq_true] at h1; simp [h1])]
    exact Or.inl rfl

theorem qStep_invA (ev : QEv) (s : QState) (h : QInvA s) : QInvA (qStep ev s) := by
  obtain ⟨hg, hlen, herr⟩ := h
  cases ev with
  | mount =>
    simp only [qStep]
    split
    · rcases qFetchStart_cases s with hc | ⟨hm, hz, hc⟩
      · rw [hc]; exact ⟨hg, hlen, herr⟩
      · rw [hc]
        exact ⟨hg, by simp [hz hg], fun hne => absurd rfl hne⟩
    · exact ⟨hg, hlen, herr⟩
  | refresh =>
    simp only [qStep]
    rcases qFetchStart_cases s with hc | ⟨hm, hz, hc⟩
    · rw [hc]; exact ⟨hg, hlen, herr⟩
    · rw [hc]
      exact ⟨hg, by simp [hz hg], fun hne => absurd rfl hne⟩
  | settleOk v =>
    simp only [qStep]
    unfold qSettleOk
    split
    · exact ⟨hg, hlen, herr⟩
    · rename_i hz
      by_cases hm : s.isMounted = true <;> simp only [hm, if_true, if_false]
      · exact ⟨hg, by show s.outstanding - 1 ≤ 1; omega,
          fun hne => by show s.outstanding - 1 = 0; rw [herr hne]⟩
      · simp only [Bool.not_eq_true] at hm
        simp only [hm, Bool.false_eq_true, if_false]
        exact ⟨hg, by show s.outstanding - 1 ≤ 1; omega,
          fun hne => by show s.outstanding - 1 = 0; rw [herr hne]⟩
  | settleErr e =>
    simp only [qStep]
    unfold qSettleErr
    split
    · exact ⟨hg, hlen, herr⟩
    · rename_i hz
      by_cases hm : s.isMounted = true <;> simp only [hm, if_true, if_false]
      · exact ⟨hg, by show s.outstanding - 1 ≤ 1; omega,
          fun _ => by show s.outstanding - 1 = 0; omega⟩
      · simp only [Bool.not_eq_true] at hm
        simp only [hm, Bool.false_eq_true, if_false]
        exact ⟨hg, by show s.outstanding - 1 ≤ 1; omega,
          fun hne => by show s.outstanding - 1 = 0; rw [herr hne]⟩
  | unmount =>
    simp only [qStep]
    exact ⟨hg, hlen, herr⟩

theorem qStep_loadInv (ev : QEv) (s : QState) (hq : ev ≠ QEv.unmount)
    (h : qLoadInv s) : qLoadInv (qStep ev s) := by
  obtain ⟨hm, hg, hlen, hiff⟩ := h
  cases ev with
  | mount =>
    simp only [qStep]
    split
    · rcases qFetchStart_cases s with hc | ⟨hm2, hz, hc⟩
      · rw [hc]; exact ⟨hm, hg, hlen, hiff⟩
      · rw [hc]
        exact ⟨hm, hg, by simp [hz hg], by simp⟩
    · exact ⟨hm, hg, hlen, hiff⟩
  | refresh =>
    simp only [qStep]
    rcases qFetchStart_cases s with hc | ⟨hm2, hz, hc⟩
    · rw [hc]; exact ⟨hm, hg, hlen, hiff⟩
    · rw [hc]
      exact ⟨hm, hg, by simp [hz hg], by simp⟩
  | settleOk v =>
    simp only [qStep]
    unfold qSettleOk
    split
    · exact ⟨hm, hg, hlen, hiff⟩
    · rename_i hz
      simp only [hm, if_true]
      have h1 : s.outstanding = 1 := by omega
      exact ⟨rfl, hg, by show s.outstanding - 1 ≤ 1; omega,
        by show false = decide (s.outstanding - 1 ≠ 0); simp [h1]⟩
  | settleErr e =>
    simp only [qStep]
    unfold qSettleErr
    split
    · exact ⟨hm, hg, hlen, hiff⟩
    · rename_i hz
      simp only [hm, if_true]
      have h1 : s.outstanding = 1 := by omega
      exact ⟨rfl, hg, by show s.outstanding - 1 ≤ 1; omega,
        by show false = decide (s.outstanding - 1 ≠ 0); simp [h1]⟩
  | unmount => exact absurd rfl hq

theorem qStep_errStep (ev : QEv) (s : QState) (hinv : QInvA s) (m : String)
    (hsome : s.error = some m) : QErrStep s (qStep ev s) := by
  cases ev with
  | mount =>
    simp only [qStep]
    split
    · rcases qFetchStart_cases s with hc | ⟨hm, hz, hc⟩
      · rw [hc]; exact ⟨le_rfl, Or.inl rfl⟩
      · rw [hc]
        exact ⟨Nat.le_succ _, Or.inr ⟨rfl, Nat.lt_succ_self _⟩⟩
    · exact ⟨le_rfl, Or.inl rfl⟩
  | refresh =>
    simp only [qStep]
    rcases qFetchStart_cases s with hc | ⟨hm, hz, hc⟩
    · rw [hc]; exact ⟨le_rfl, Or.inl rfl⟩
    · rw [hc]
      exact ⟨Nat.le_succ _, Or.inr ⟨rfl, Nat.lt_succ_self _⟩⟩
  | settleOk v =>
    simp only [qStep]
    unfold qSettleOk
    split
    · exact ⟨le_rfl, Or.inl rfl⟩
    · by_cases hm : s.isMounted = true <;> simp only [hm, if_true, if_false]
      · exact ⟨le_rfl, Or.inl rfl⟩
      · simp only [Bool.not_eq_true] at hm
        simp only [hm, Bool.false_eq_true, if_false]
        exact ⟨le_rfl, Or.inl rfl⟩
  | settleErr e =>
    simp only [qStep]
    unfold qSettleErr
    rw [if_pos (hinv.2.2 (by rw [hsome]; simp))]
    exact ⟨le_rfl, Or.inl rfl⟩
  | unmount =>
    simp only [qStep]
    exact ⟨le_rfl, Or.inl rfl⟩

theorem qRun_preserve (P : QState → Prop)
    (hstep : ∀ ev s, P s → P (qStep ev s)) :
    ∀ (evs : List QEv) (s : QState), P s → P (qRun s evs) := by
  intro evs
  induction evs with
  | nil => intro s h; exact h
  | cons e es ih =>
    intro s h
    exact ih (qStep e s) (hstep e s h)

theorem qRun_preserve_cond (P : QState → Prop) (Q : QEv → Prop)
    (hstep : ∀ ev s, Q ev → P s → P (qStep ev s)) :
    ∀ (evs : List QEv), (∀ e ∈ evs, Q e) → ∀ s, P s → P (qRun s evs) := by
  intro evs
  induction evs with
  | nil => intro _ s h; exact h
  | cons e es ih =>
    intro hq s h
    exact ih (fun x hx => hq x (List.mem_cons_of_mem e hx)) _
      (hstep e s (hq e (List.mem_cons_self e es)) h)

theorem pagFetchStart_post_load (pg : Pg) (srt : Option Nat) (fl : Nat) (t : PagState)
    (hout : t.outstanding = []) (hm : t.isMounted = true) (hen : t.enabled = true) :
    pagLoadInv (pagFetchStart pg srt fl t) := by
  unfold pagFetchStart
  rw [if_neg (by simp [hout, hm, hen])]
  exact ⟨hm, hen, by simp [hout], by simp [hout]⟩

theorem pagMount_load_base (f0 p0 l0 : Nat) (s0 : Option Nat) (seed : Option PagResult) :
    pagLoadInv (pagStep PagEv.mount (pagInit true f0 p0 l0 s0 seed)) := by
  simp only [pagStep]
  refine pagLoadInv_of_fetchLike (pagStabilize_fetchLike 6 _) ?_
  unfold pagMount
  dsimp only
  rw [if_pos (show (pagInit true f0 p0 l0 s0 seed).enabled = true from rfl)]
  exact pagLoadInv_of_fetchLike (pagMountEffects_fetchLike _)
    (pagFetchStart_post_load _ _ _ _ rfl rfl rfl)

theorem infLoad_base (f0 ps : Nat) (s0 : Option Nat) (seed : Option InfData) :
    infLoadInv (infInit true f0 s0 ps seed) :=
  ⟨rfl, rfl, by simp [infInit], rfl, rfl⟩

theorem qMount_load_base (im : Bool) (seed : Option Nat) :
    qLoadInv (qStep QEv.mount (qInit true im seed)) := by
  cases im with
  | true =>
    simp only [qStep]
    rw [if_pos (show (qInit true true seed).immediate = true from rfl)]
    unfold qFetchStart
    rw [if_neg (by simp [qInit])]
    rw [if_neg (by simp [qInit])]
    exact ⟨rfl, rfl, by simp [qInit], by simp [qInit]⟩
  | false =>
    simp only [qStep]
    rw [if_neg (by simp [qInit])]
    exact ⟨rfl, rfl, by simp [qInit], by simp [qInit]⟩

theorem pagRenderPass_unmounted (s : PagState) (h : s.isMounted = false) :
    pagRenderPass s = s := by
  unfold pagRenderPass
  rw [if_pos (by simp [h])]

theorem pagStabilize_unmounted (n : Nat) (s : PagState) (h : s.isMounted = false) :
    pagStabilize n s = s := by
  cases n with
  | zero => rfl
  | succ k =>
    show (if pagRenderPass s = s then s else pagStabilize k (pagRenderPass s)) = s
    rw [if_pos (pagRenderPass_unmounted s h)]

theorem infRenderPass_unmounted (s : InfState) (h : s.isMounted = false) :
    infRenderPass s = s := by
  unfold infRenderPass
  rw [if_pos (by simp [h])]

theorem infStabilize_unmounted (n : Nat) (s : InfState) (h : s.isMounted = false) :
    infStabilize n s = s := by
  cases n with
  | zero => rfl
  | succ k =>
    show (if infRenderPass s = s then s else infStabilize k (infRenderPass s)) = s
    rw [if_pos (infRenderPass_unmounted s h)]

/-! ## Claims -/

/-- C1, counterexample.  The primary revision of the single-fetch
controller (`useQuery.ts`, `fetchData` guarded only by the liveness flag)
does not deduplicate: after `refresh()` is called while a previous
invocation is still outstanding, two producer invocations are outstanding
at once, contradicting the claim that a second trigger is a no-op while
one is outstanding. -/
theorem C1_counterexample :
    (qRun (qInit false false none) [QEv.mount, QEv.refresh]).outstanding = 1 ∧
    (qRun (qInit false false none) [QEv.mount, QEv.refresh, QEv.refresh]).outstanding = 2 ∧
    (qRun (qInit false false none) [QEv.mount, QEv.refresh, QEv.refresh]).callCount = 2 := by
  refine ⟨by decide, by decide, by decide⟩

/-- C2, evaluation of the code at the claim's input.  Paginated controller
with `enabled = false`, mounted, no request in flight: `refresh()` does not
invoke the producer (the `!enabled` early return inside `fetchData` fires),
although the claim — and the source's own comment on `refresh` and the
README — say the manual refresh works regardless of `enabled`. -/
theorem C2_code_evaluation :
    (pagRun (pagInit false 1 1 10 none none) [PagEv.mount]).outstanding = [] ∧
    (pagRun (pagInit false 1 1 10 none none) [PagEv.mount, PagEv.refresh]).callLog = [] ∧
    (pagRun (pagInit false 1 1 10 none none) [PagEv.mount, PagEv.refresh]).isLoading = false := by
  refine ⟨by decide, by decide, by decide⟩

/-- C3, counterexample.  At construction (before the mount effect has run,
hence before any request exists) the paginated controller already reports
`isLoading = true` when `enabled = true`, because the source initialises
the flag with `useState(enabled)`; likewise the single-fetch controller
initialises it with `useState(immediate)`.  So `isLoading` can be true
with no request outstanding, contradicting the claim's "including at
construction". -/
theorem C3_counterexample :
    (pagInit true 1 1 10 none none).isLoading = true ∧
    (pagInit true 1 1 10 none none).outstanding = [] ∧
    (qInit false true none).isLoading = true ∧
    (qInit false true none).outstanding = 0 := by
  refine ⟨by decide, by decide, by decide, by decide⟩

/-- C4, evaluation of the code at the claim's input.  Paginated controller,
enabled, initial fetch settled at page 3; the consumer changes the filters
and the debounce elapses while the producer is idle.  The filter-change
effect resets pagination to page 1 without fetching — but the
enabled-refetch effect, whose dependency array also lists the debounced
filters, runs in the same render and fetches with the STALE page (3) and
the new filters; the fetch triggered by the pagination reset in the next
render is then dropped by the in-flight guard.  Net effect: exactly one
producer invocation for the filter change, carrying page 3, not page 1 —
contradicting the claim and the repository's own test, which expects the
last call to carry page 1. -/
theorem C4_code_evaluation :
    ((pagRun (pagInit true 1 3 10 none none)
        [PagEv.mount, PagEv.settleOk (some resPage3), PagEv.setFilters 2, PagEv.debounce 2,
         PagEv.settleOk (some resPage3)]).callLog.map
      (fun c => (c.pg.page, c.filters)) = [(3, 1), (3, 2)]) ∧
    (pagRun (pagInit true 1 3 10 none none)
        [PagEv.mount, PagEv.settleOk (some resPage3), PagEv.setFilters 2, PagEv.debounce 2,
         PagEv.settleOk (some resPage3)]).pagination.page = 1 := by
  refine ⟨by decide, by decide⟩

/-- C5, counterexample.  A disabled infinite controller whose state was
seeded (via `getState`) with metadata announcing a next page: no request
is in flight and the last known metadata indicates a next page, yet
`loadMore()` does not fetch — the `!enabled` early return inside
`fetchData` fires.  The claim's "otherwise it fetches page
currentPage + 1" omits the `enabled` gate. -/
theorem C5_counterexample :
    ((infRun (infInit false 1 none 10 (some seededInfData)) [InfEv.mount]).idata.meta.hasNextPage
        = true) ∧
    (infRun (infInit false 1 none 10 (some seededInfData)) [InfEv.mount]).outstanding = [] ∧
    (infRun (infInit false 1 none 10 (some seededInfData)) [InfEv.mount, InfEv.loadMore]).callLog
        = [] := by
  refine ⟨by decide, by decide, by decide⟩

/-- C6, counterexample.  In the primary (unguarded) single-fetch revision,
two overlapping `refresh()` calls put two invocations in flight; when the
first rejects with "A" the stored error becomes "A", and when the second
rejects with "B" the stored error is REPLACED by "B" although no new
attempt started in between (the call count stays 2).  So the stored error
does not, in general, remain visible exactly until the next attempt
starts. -/
theorem C6_counterexample :
    ((qRun (qInit false false none)
        [QEv.mount, QEv.refresh, QEv.refresh, QEv.settleErr (JSVal.vstr "A")]).error
      = some "A") ∧
    ((qRun (qInit false false none)
        [QEv.mount, QEv.refresh, QEv.refresh, QEv.settleErr (JSVal.vstr "A")]).callCount = 2) ∧
    ((qRun (qInit false false none)
        [QEv.mount, QEv.refresh, QEv.refresh, QEv.settleErr (JSVal.vstr "A"),
         QEv.settleErr (JSVal.vstr "B")]).error = some "B") ∧
    ((qRun (qInit false false none)
        [QEv.mount, QEv.refresh, QEv.refresh, QEv.settleErr (JSVal.vstr "A"),
         QEv.settleErr (JSVal.vstr "B")]).callCount = 2) := by
  refine ⟨by decide, by decide, by decide, by decide⟩

/-- C7.  Error normalisation: for every failure value, the message stored
by the catch blocks equals the spec's description — the failure itself if
it is a plain text message, else its `message` field if that field is
text, else "Unknown error" — and each controller's rejection handler
stores exactly an error with that message. -/
theorem C7_error_normalization :
    (∀ e : JSVal, normalizeErrorMessage e = specErrorMessage e) ∧
    (∀ (s : PagState) (e : JSVal), s.isMounted = true → s.outstanding ≠ [] →
      (pagSettleErr e s).error = some (specErrorMessage e)) ∧
    (∀ (s : InfState) (e : JSVal), s.isMounted = true → s.outstanding ≠ [] →
      (infSettleErr e s).error = some (specErrorMessage e)) ∧
    (∀ (s : QState) (e : JSVal), s.isMounted = true → s.outstanding ≠ 0 →
      (qSettleErr e s).error = some (specErrorMessage e)) := by
  have hnorm : ∀ e : JSVal, normalizeErrorMessage e = specErrorMessage e := by
    intro e
    cases e with
    | vnull => rfl
    | vundef => rfl
    | vstr s => rfl
    | vnum n => rfl
    | vbool b => rfl
    | vobjMsg m => cases m <;> rfl
    | vobjPlain => rfl
  refine ⟨hnorm, ?_, ?_, ?_⟩
  · intro s e hm ho
    cases hout : s.outstanding with
    | nil => exact absurd hout ho
    | cons c rest => simp [pagSettleErr, hout, hm, hnorm e]
  · intro s e hm ho
    cases hout : s.outstanding with
    | nil => exact absurd hout ho
    | cons c rest => simp [infSettleErr, hout, hm, hnorm e]
  · intro s e hm ho
    simp [qSettleErr, ho, hm, hnorm e]

/-- C7, witness: the normalisation theorem applied to a paginated
controller that mounted (one request outstanding) and a plain-text
rejection "API error". -/
theorem C7_error_normalization_witness :
    (pagRun (pagInit true 1 1 10 none none) [PagEv.mount]).isMounted = true ∧
    (pagRun (pagInit true 1 1 10 none none) [PagEv.mount]).outstanding ≠ [] ∧
    (pagSettleErr (JSVal.vstr "API error")
        (pagRun (pagInit true 1 1 10 none none) [PagEv.mount])).error
      = some (specErrorMessage (JSVal.vstr "API error")) :=
  ⟨by decide, by decide,
   C7_error_normalization.2.1 _ (JSVal.vstr "API error") (by decide) (by decide)⟩

/-- C8.  Debouncer: a burst of input changes, each gap strictly below the
delay, produces exactly one output assignment, carrying the final value of
the burst, exactly `delay` after the last change (hence no earlier); and a
change arriving before a pending update fires cancels it, restarting the
computation from the later change. -/
theorem C8_debouncer (delay : Nat) :
    (∀ (changes : List (Nat × Nat)) (h : changes ≠ []),
      burstWithin delay changes = true →
      debounceFires delay changes
        = [((changes.getLast h).1 + delay, (changes.getLast h).2)]) ∧
    (∀ (t v tn vn : Nat) (rest : List (Nat × Nat)), tn < t + delay →
      debounceFires delay ((t, v) :: (tn, vn) :: rest)
        = debounceFires delay ((tn, vn) :: rest)) := by
  constructor
  · intro changes
    induction changes with
    | nil => intro h; exact absurd rfl h
    | cons x xs ih =>
      intro h hbb
      obtain ⟨t, v⟩ := x
      cases xs with
      | nil => simp [debounceFires]
      | cons y ys =>
        obtain ⟨tn, vn⟩ := y
        simp only [burstWithin, Bool.and_eq_true, decide_eq_true_eq] at hbb
        obtain ⟨⟨hlt, hgap⟩, hrest⟩ := hbb
        have hcancel : ¬ (t + delay ≤ tn) := by omega
        have hne : (tn, vn) :: ys ≠ [] := by simp
        rw [List.getLast_cons hne]
        simp only [debounceFires, if_neg hcancel, List.nil_append]
        exact ih hne hrest
  · intro t v tn vn rest hlt
    have hcancel : ¬ (t + delay ≤ tn) := by omega
    simp [debounceFires, if_neg hcancel]

/-- C8, witness: the burst (0,1),(3,2),(5,7) with delay 10 fires once, at
time 15 with value 7, and the change at time 3 cancelled the pending
update of value 1. -/
theorem C8_debouncer_witness :
    burstWithin 10 [(0, 1), (3, 2), (5, 7)] = true ∧
    debounceFires 10 [(0, 1), (3, 2), (5, 7)] = [(15, 7)] ∧
    (3 < 0 + 10 ∧
      debounceFires 10 [(0, 1), (3, 2), (5, 7)] = debounceFires 10 [(3, 2), (5, 7)]) :=
  ⟨by decide,
   by
     have h := (C8_debouncer 10).1 [(0, 1), (3, 2), (5, 7)] (by decide) (by decide)
     simpa using h,
   by decide,
   (C8_debouncer 10).2 0 1 3 2 [(5, 7)] (by decide)⟩

/-- C10.  The infinite controller's page cursor advances only on success:
from an idle state whose metadata announces a next page, `loadMore()`
invokes the producer for page `currentPage + 1`; if that invocation
rejects, the cursor keeps its previous value, and a subsequent
`loadMore()` requests the same page number again. -/
theorem C10_cursor_only_on_success (s : InfState) (e : JSVal)
    (hm : s.isMounted = true) (hen : s.enabled = true)
    (hidle : s.outstanding = []) (hnext : s.idata.meta.hasNextPage = true) :
    (infLoadMore s).callLog = s.callLog ++
      [{ page := s.currentPage + 1, sort := s.sort, filters := s.debouncedFilters,
         append := true }] ∧
    (infSettleErr e (infLoadMore s)).currentPage = s.currentPage ∧
    (infLoadMore (infSettleErr e (infLoadMore s))).callLog =
      (infSettleErr e (infLoadMore s)).callLog ++
        [{ page := s.currentPage + 1, sort := s.sort, filters := s.debouncedFilters,
           append := true }] := by
  simp [infLoadMore, infFetchStart, infSettleErr, hm, hen, hidle, hnext]

/-- C10, witness: the retry theorem applied to a concrete infinite
controller after its first page settled with next-page metadata. -/
theorem C10_cursor_only_on_success_witness :
    (infRun (infInit true 1 none 10 none)
        [InfEv.mount, InfEv.settleOk { items := [1, 2], meta := metaPage3 }]).isMounted
      = true ∧
    (infSettleErr (JSVal.vstr "boom")
        (infLoadMore
          (infRun (infInit true 1 none 10 none)
            [InfEv.mount, InfEv.settleOk { items := [1, 2], meta := metaPage3 }]))).currentPage
      = (infRun (infInit true 1 none 10 none)
          [InfEv.mount, InfEv.settleOk { items := [1, 2], meta := metaPage3 }]).currentPage :=
  ⟨by decide,
   (C10_cursor_only_on_success _ (JSVal.vstr "boom") (by decide) (by decide) (by decide)
      (by decide)).2.1⟩

/-- C1, amended.  For the paginated and infinite controllers, and for the
single-fetch revision that carries the `requestInProgress` guard, at most
one producer invocation is outstanding at any instant on every run, and
triggering a fetch-causing action (`refresh`, `loadMore`) while a request
is outstanding does not invoke the producer.  The primary single-fetch
revision lacks the guard, so there an overlapping `refresh` does start a
second invocation (see the counterexample). -/
theorem C1_amended :
    (∀ (en : Bool) (f0 p0 l0 : Nat) (s0 : Option Nat) (seed : Option PagResult)
      (evs : List PagEv),
      (pagRun (pagInit en f0 p0 l0 s0 seed) evs).outstanding.length ≤ 1) ∧
    (∀ (en : Bool) (f0 ps : Nat) (s0 : Option Nat) (seed : Option InfData)
      (evs : List InfEv),
      (infRun (infInit en f0 s0 ps seed) evs).outstanding.length ≤ 1) ∧
    (∀ (im : Bool) (seed : Option Nat) (evs : List QEv),
      (qRun (qInit true im seed) evs).outstanding ≤ 1) ∧
    (∀ s : PagState, s.outstanding ≠ [] → (pagRefresh s).callLog = s.callLog) ∧
    (∀ s : InfState, s.outstanding ≠ [] →
      (infLoadMore s).callLog = s.callLog ∧ (infRefresh s).callLog = s.callLog) ∧
    (∀ s : QState, s.guarded = true → s.outstanding ≠ 0 → qFetchStart s = s) := by
  refine ⟨?_, ?_, ?_, ?_, ?_, ?_⟩
  · intro en f0 p0 l0 s0 seed evs
    exact (pagRun_preserve PagInvA (fun ev s h => pagStep_invA ev s h) evs
      (pagInit en f0 p0 l0 s0 seed) ⟨by simp [pagInit], fun _ => rfl⟩).1
  · intro en f0 ps s0 seed evs
    exact (infRun_preserve InfInvA (fun ev s h => infStep_invA ev s h) evs
      (infInit en f0 s0 ps seed) ⟨by simp [infInit], fun _ => rfl, fun _ => ⟨rfl, rfl⟩⟩).1
  · intro im seed evs
    exact (qRun_preserve QInvA (fun ev s h => qStep_invA ev s h) evs
      (qInit true im seed) ⟨rfl, Nat.zero_le _, fun _ => rfl⟩).2.1
  · intro s hne
    cases houts : s.outstanding with
    | nil => exact absurd houts hne
    | cons c rest =>
      unfold pagRefresh pagFetchStart
      rw [if_pos (by simp [houts])]
  · intro s hne
    cases houts : s.outstanding with
    | nil => exact absurd houts hne
    | cons c rest =>
      constructor
      · unfold infLoadMore
        rw [if_pos (by simp [houts])]
      · unfold infRefresh infFetchStart
        rw [if_pos (by simp [houts])]
  · intro s hg hz
    unfold qFetchStart
    by_cases hm : (!s.isMounted) = true
    · rw [if_pos hm]
    · rw [if_neg hm, if_pos (by simp [hg, hz])]

/-- C1, witness: the amended no-op clause applied to a paginated
controller whose mount fetch is still outstanding. -/
theorem C1_amended_witness :
    (pagRun (pagInit true 1 1 10 none none) [PagEv.mount]).outstanding ≠ [] ∧
    (pagRefresh (pagRun (pagInit true 1 1 10 none none) [PagEv.mount])).callLog =
      (pagRun (pagInit true 1 1 10 none none) [PagEv.mount]).callLog :=
  ⟨by decide, C1_amended.2.2.2.1 _ (by decide)⟩

/-- C3, amended.  At construction, `isLoading` is initialised to `enabled`
(paginated) resp. `immediate` (single fetch), which can be true before any
request exists.  From the mount effect onward, for a mounted, enabled
instance (and, for the single-fetch controller, the guarded revision — the
unguarded one can drop `isLoading` while an overlapping second request is
still outstanding, see C1), `isLoading` is true exactly while a request is
outstanding, and the infinite controller's `isLoadingMore` is true exactly
while an appending request is outstanding. -/
theorem C3_amended :
    (∀ (f0 p0 l0 : Nat) (s0 : Option Nat) (seed : Option PagResult) (evs : List PagEv),
      (∀ e ∈ evs, e ≠ PagEv.unmount) →
      pagLoadInv (pagRun (pagInit true f0 p0 l0 s0 seed) (PagEv.mount :: evs))) ∧
    (∀ (f0 ps : Nat) (s0 : Option Nat) (seed : Option InfData) (evs : List InfEv),
      (∀ e ∈ evs, e ≠ InfEv.unmount) →
      infLoadInv (infRun (infInit true f0 s0 ps seed) evs)) ∧
    (∀ (im : Bool) (seed : Option Nat) (evs : List QEv),
      (∀ e ∈ evs, e ≠ QEv.unmount) →
      qLoadInv (qRun (qInit true im seed) (QEv.mount :: evs))) := by
  refine ⟨?_, ?_, ?_⟩
  · intro f0 p0 l0 s0 seed evs hq
    exact pagRun_preserve_cond pagLoadInv (fun e => e ≠ PagEv.unmount)
      (fun ev s hqe h => pagStep_loadInv ev s hqe h) evs hq _
      (pagMount_load_base f0 p0 l0 s0 seed)
  · intro f0 ps s0 seed evs hq
    exact infRun_preserve_cond infLoadInv (fun e => e ≠ InfEv.unmount)
      (fun ev s hqe h => infStep_loadInv ev s hqe h) evs hq _
      (infLoad_base f0 ps s0 seed)
  · intro im seed evs hq
    exact qRun_preserve_cond qLoadInv (fun e => e ≠ QEv.unmount)
      (fun ev s hqe h => qStep_loadInv ev s hqe h) evs hq _
      (qMount_load_base im seed)

/-- C3, witness: the amended loading invariant applied to a mounted
paginated controller whose initial fetch has settled. -/
theorem C3_amended_witness :
    (∀ e ∈ [PagEv.settleOk (some resPage3)], e ≠ PagEv.unmount) ∧
    pagLoadInv (pagRun (pagInit true 1 1 10 none none)
      (PagEv.mount :: [PagEv.settleOk (some resPage3)])) :=
  ⟨by decide, C3_amended.1 1 1 10 none none [PagEv.settleOk (some resPage3)] (by decide)⟩

/-- C5, amended.  For the infinite controller: `loadMore()` is a no-op
when a request is in flight, when the last metadata does not announce a
next page, or when the controller is disabled; otherwise (mounted,
enabled) it invokes the producer for page `currentPage + 1` appending.  A
successful append settle appends the page's items to `allData` and
replaces `data`/`meta` with the new page's values, advancing the cursor; a
successful replacing settle replaces `allData`.  Hence `allData` is always
the ordered concatenation, in fetch order, of the pages fetched
successfully since the last reset point (a `reset()` or a successful
replacing fetch — the fetch `refresh()` and filter/sort changes issue). -/
theorem C5_amended :
    (∀ s : InfState,
      (s.outstanding ≠ [] ∨ s.idata.meta.hasNextPage = false ∨ s.enabled = false) →
      infLoadMore s = s) ∧
    (∀ s : InfState, s.outstanding = [] → s.idata.meta.hasNextPage = true →
      s.isMounted = true → s.enabled = true →
      (infLoadMore s).callLog = s.callLog ++
        [{ page := s.currentPage + 1, sort := s.sort, filters := s.debouncedFilters,
           append := true }] ∧
      (infLoadMore s).outstanding =
        [{ page := s.currentPage + 1, sort := s.sort, filters := s.debouncedFilters,
           append := true }]) ∧
    (∀ (s : InfState) (v : PagResult) (c : InfCall) (rest : List InfCall),
      s.outstanding = c :: rest → s.isMounted = true →
      (c.append = true →
        (infSettleOk v s).idata.allData = s.idata.allData ++ v.items) ∧
      (c.append = false → (infSettleOk v s).idata.allData = v.items) ∧
      (infSettleOk v s).idata.dataL = v.items ∧
      (infSettleOk v s).idata.meta = v.meta ∧
      (infSettleOk v s).currentPage = c.page) ∧
    (∀ (en : Bool) (f0 ps : Nat) (s0 : Option Nat) (evs : List InfEv),
      (infRun (infInit en f0 s0 ps none) evs).idata.allData =
        (infRun (infInit en f0 s0 ps none) evs).pagesSinceReset.flatten) := by
  refine ⟨?_, ?_, ?_, ?_⟩
  · intro s h
    rcases h with h | h | h
    · cases houts : s.outstanding with
      | nil => exact absurd houts h
      | cons c rest =>
        unfold infLoadMore
        rw [if_pos (by simp [houts])]
    · unfold infLoadMore
      rw [if_pos (by simp [h])]
    · unfold infLoadMore
      by_cases hg : (!s.idata.meta.hasNextPage || !s.outstanding.isEmpty) = true
      · rw [if_pos hg]
      · rw [if_neg hg]
        unfold infFetchStart
        rw [if_pos (by simp [h])]
  · intro s hout hnext hm hen
    unfold infLoadMore
    rw [if_neg (by simp [hout, hnext])]
    unfold infFetchStart
    rw [if_neg (by simp [hout, hm, hen])]
    exact ⟨rfl, by simp [hout]⟩
  · intro s v c rest hout hm
    simp only [infSettleOk, hout]
    refine ⟨?_, ?_, ?_, ?_, ?_⟩
    · intro hap
      simp [hm, hap]
    · intro hap
      simp [hm, hap]
    · simp [hm]
    · simp [hm]
    · simp [hm]
  · intro en f0 ps s0 evs
    exact infRun_preserve _ (fun ev s h => infStep_ghost ev s h) evs _ rfl

/-- C5, witness: the amended `loadMore` clause applied to a concrete
infinite controller after its first page settled with next-page
metadata. -/
theorem C5_amended_witness :
    (infRun (infInit true 1 none 10 none)
        [InfEv.mount, InfEv.settleOk { items := [1, 2], meta := metaPage3 }]).outstanding
      = [] ∧
    (infLoadMore
        (infRun (infInit true 1 none 10 none)
          [InfEv.mount, InfEv.settleOk { items := [1, 2], meta := metaPage3 }])).callLog =
      (infRun (infInit true 1 none 10 none)
          [InfEv.mount, InfEv.settleOk { items := [1, 2], meta := metaPage3 }]).callLog ++
        [{ page := (infRun (infInit true 1 none 10 none)
              [InfEv.mount, InfEv.settleOk { items := [1, 2], meta := metaPage3 }]).currentPage + 1,
           sort := none, filters := 1, append := true }] :=
  ⟨by decide,
   (C5_amended.2.1 _ (by decide) (by decide) (by decide) (by decide)).1⟩

/-- C6, amended.  A producer failure never touches the stored data (for
the infinite controller the whole accumulated result triple is kept), an
attempt clears the error before the producer is invoked (every state in
which a fresh invocation was just issued has `error = none`), and — for
the paginated and infinite controllers and the guarded single-fetch
revision — a stored error persists, step by step, until a step that both
clears it and invokes the producer.  In the unguarded single-fetch
revision a second overlapping settle can replace the stored error with no
new attempt (see the counterexample, a further consequence of the missing
in-flight guard of C1). -/
theorem C6_amended :
    (∀ (s : PagState) (e : JSVal), (pagSettleErr e s).data = s.data) ∧
    (∀ (s : InfState) (e : JSVal), (infSettleErr e s).idata = s.idata) ∧
    (∀ (s : QState) (e : JSVal), (qSettleErr e s).data = s.data) ∧
    (∀ (pg : Pg) (srt : Option Nat) (fl : Nat) (s : PagState),
      (pagFetchStart pg srt fl s).callLog ≠ s.callLog →
      (pagFetchStart pg srt fl s).error = none) ∧
    (∀ (page : Nat) (srt : Option Nat) (fl : Nat) (ap : Bool) (s : InfState),
      (infFetchStart page srt fl ap s).callLog ≠ s.callLog →
      (infFetchStart page srt fl ap s).error = none) ∧
    (∀ s : QState, (qFetchStart s).callCount ≠ s.callCount →
      (qFetchStart s).error = none) ∧
    (∀ (en : Bool) (f0 p0 l0 : Nat) (s0 : Option Nat) (seed : Option PagResult)
      (evs : List PagEv) (ev : PagEv) (m : String),
      (pagRun (pagInit en f0 p0 l0 s0 seed) evs).error = some m →
      ((pagStep ev (pagRun (pagInit en f0 p0 l0 s0 seed) evs)).error = some m ∨
       ((pagStep ev (pagRun (pagInit en f0 p0 l0 s0 seed) evs)).error = none ∧
        (pagRun (pagInit en f0 p0 l0 s0 seed) evs).callLog.length <
          (pagStep ev (pagRun (pagInit en f0 p0 l0 s0 seed) evs)).callLog.length))) ∧
    (∀ (en : Bool) (f0 ps : Nat) (s0 : Option Nat) (seed : Option InfData)
      (evs : List InfEv) (ev : InfEv) (m : String),
      (infRun (infInit en f0 s0 ps seed) evs).error = some m →
      ((infStep ev (infRun (infInit en f0 s0 ps seed) evs)).error = some m ∨
       ((infStep ev (infRun (infInit en f0 s0 ps seed) evs)).error = none ∧
        (infRun (infInit en f0 s0 ps seed) evs).callLog.length <
          (infStep ev (infRun (infInit en f0 s0 ps seed) evs)).callLog.length))) ∧
    (∀ (im : Bool) (seed : Option Nat) (evs : List QEv) (ev : QEv) (m : String),
      (qRun (qInit true im seed) evs).error = some m →
      ((qStep ev (qRun (qInit true im seed) evs)).error = some m ∨
       ((qStep ev (qRun (qInit true im seed) evs)).error = none ∧
        (qRun (qInit true im seed) evs).callCount <
          (qStep ev (qRun (qInit true im seed) evs)).callCount))) := by
  refine ⟨?_, ?_, ?_, ?_, ?_, ?_, ?_, ?_, ?_⟩
  · intro s e
    cases hout : s.outstanding with
    | nil => simp [pagSettleErr, hout]
    | cons c rest =>
      by_cases hm : s.isMounted = true <;> simp [pagSettleErr, hout, hm]
  · intro s e
    cases hout : s.outstanding with
    | nil => simp [infSettleErr, hout]
    | cons c rest =>
      by_cases hm : s.isMounted = true <;> simp [infSettleErr, hout, hm]
  · intro s e
    unfold qSettleErr
    split
    · rfl
    · by_cases hm : s.isMounted = true <;> simp [hm]
  · intro pg srt fl s hne
    unfold pagFetchStart at hne ⊢
    by_cases hg : (!s.outstanding.isEmpty || !s.isMounted || !s.enabled) = true
    · rw [if_pos hg] at hne
      exact absurd rfl hne
    · rw [if_neg hg]
  · intro page srt fl ap s hne
    unfold infFetchStart at hne ⊢
    by_cases hg : (!s.outstanding.isEmpty || !s.isMounted || !s.enabled) = true
    · rw [if_pos hg] at hne
      exact absurd rfl hne
    · rw [if_neg hg]
  · intro s hne
    unfold qFetchStart at hne ⊢
    by_cases h1 : (!s.isMounted) = true
    · rw [if_pos h1] at hne
      exact absurd rfl hne
    · rw [if_neg h1] at hne ⊢
      by_cases h2 : (s.guarded && decide (s.outstanding ≠ 0)) = true
      · rw [if_pos h2] at hne
        exact absurd rfl hne
      · rw [if_neg h2]
  · intro en f0 p0 l0 s0 seed evs ev m hsome
    have hinv : PagInvA (pagRun (pagInit en f0 p0 l0 s0 seed) evs) :=
      pagRun_preserve PagInvA (fun ev s h => pagStep_invA ev s h) evs _
        ⟨by simp [pagInit], fun _ => rfl⟩
    have hstep := pagStep_errStep ev _ hinv m hsome
    rcases hstep.2 with h | ⟨h1, h2⟩
    · exact Or.inl (h.trans hsome)
    · exact Or.inr ⟨h1, h2⟩
  · intro en f0 ps s0 seed evs ev m hsome
    have hinv : InfInvA (infRun (infInit en f0 s0 ps seed) evs) :=
      infRun_preserve InfInvA (fun ev s h => infStep_invA ev s h) evs _
        ⟨by simp [infInit], fun _ => rfl, fun _ => ⟨rfl, rfl⟩⟩
    have hstep := infStep_errStep ev _ hinv m hsome
    rcases hstep.2 with h | ⟨h1, h2⟩
    · exact Or.inl (h.trans hsome)
    · exact Or.inr ⟨h1, h2⟩
  · intro im seed evs ev m hsome
    have hinv : QInvA (qRun (qInit true im seed) evs) :=
      qRun_preserve QInvA (fun ev s h => qStep_invA ev s h) evs _
        ⟨rfl, Nat.zero_le _, fun _ => rfl⟩
    have hstep := qStep_errStep ev _ hinv m hsome
    rcases hstep.2 with h | ⟨h1, h2⟩
    · exact Or.inl (h.trans hsome)
    · exact Or.inr ⟨h1, h2⟩

/-- C6, witness: the persistence clause applied to a paginated controller
whose mount fetch failed with "boom", stepped by a `refresh()` — which
clears the error and invokes the producer. -/
theorem C6_amended_witness :
    (pagRun (pagInit true 1 1 10 none none)
        [PagEv.mount, PagEv.settleErr (JSVal.vstr "boom")]).error = some "boom" ∧
    ((pagStep PagEv.refresh
        (pagRun (pagInit true 1 1 10 none none)
          [PagEv.mount, PagEv.settleErr (JSVal.vstr "boom")])).error = some "boom" ∨
     ((pagStep PagEv.refresh
        (pagRun (pagInit true 1 1 10 none none)
          [PagEv.mount, PagEv.settleErr (JSVal.vstr "boom")])).error = none ∧
      (pagRun (pagInit true 1 1 10 none none)
          [PagEv.mount, PagEv.settleErr (JSVal.vstr "boom")]).callLog.length <
        (pagStep PagEv.refresh
          (pagRun (pagInit true 1 1 10 none none)
            [PagEv.mount, PagEv.settleErr (JSVal.vstr "boom")])).callLog.length)) :=
  ⟨by decide,
   C6_amended.2.2.2.2.2.2.1 true 1 1 10 none none
     [PagEv.mount, PagEv.settleErr (JSVal.vstr "boom")] PagEv.refresh "boom" (by decide)⟩

/-- C9.  No consumer-observable controller state (data, error, loading
flags, filters, pagination, sort) changes after the consumer has
deactivated the controller: a settle arriving after unmount is discarded
by the liveness-flag guards of `fetchData`, and every public operation
called after unmount leaves the observable state unchanged (the
framework discards state-setter calls of an unmounted instance, and the
debouncer's cleanup has cancelled its pending timer). -/
theorem C9_no_mutation_after_unmount :
    (∀ (s : PagState) (ev : PagEv), s.isMounted = false → ev ≠ PagEv.mount →
      pagObs (pagStep ev s) = pagObs s) ∧
    (∀ (s : InfState) (ev : InfEv), s.isMounted = false → ev ≠ InfEv.mount →
      infObs (infStep ev s) = infObs s) ∧
    (∀ (s : QState) (ev : QEv), s.isMounted = false → ev ≠ QEv.mount →
      qObs (qStep ev s) = qObs s) := by
  refine ⟨?_, ?_, ?_⟩
  · intro s ev h hne
    cases ev with
    | mount => exact absurd rfl hne
    | setFilters v =>
      simp only [pagStep]
      rw [if_neg (by simp [h])]
    | setPagination page limit =>
      simp only [pagStep]
      rw [if_neg (by simp [h])]
    | setSort v =>
      simp only [pagStep]
      rw [if_neg (by simp [h])]
    | debounce v =>
      simp only [pagStep]
      rw [if_neg (by simp [h])]
    | refresh =>
      simp only [pagStep, pagRefresh]
      unfold pagFetchStart
      rw [if_pos (by simp [h]), pagStabilize_unmounted 6 s h]
    | settleOk v =>
      simp only [pagStep]
      cases hout : s.outstanding with
      | nil =>
        simp only [pagSettleOk, hout]
        rw [pagStabilize_unmounted 6 s h]
      | cons c rest =>
        simp only [pagSettleOk, hout]
        rw [if_neg (by simp [h]), if_neg (by simp [h])]
        rw [pagStabilize_unmounted 6 _ (by simp [h])]
        rfl
    | settleErr e =>
      simp only [pagStep]
      cases hout : s.outstanding with
      | nil =>
        simp only [pagSettleErr, hout]
        rw [pagStabilize_unmounted 6 s h]
      | cons c rest =>
        simp only [pagSettleErr, hout]
        rw [if_neg (by simp [h]), if_neg (by simp [h])]
        rw [pagStabilize_unmounted 6 _ (by simp [h])]
        rfl
    | unmount =>
      simp only [pagStep]
      rfl
  · intro s ev h hne
    cases ev with
    | mount => exact absurd rfl hne
    | setFilters v =>
      simp only [infStep]
      rw [if_neg (by simp [h])]
    | setSort v =>
      simp only [infStep]
      rw [if_neg (by simp [h])]
    | debounce v =>
      simp only [infStep]
      rw [if_neg (by simp [h])]
    | loadMore =>
      simp only [infStep]
      unfold infLoadMore
      by_cases hg : (!s.idata.meta.hasNextPage || !s.outstanding.isEmpty) = true
      · rw [if_pos hg, infStabilize_unmounted 6 s h]
      · rw [if_neg hg]
        unfold infFetchStart
        rw [if_pos (by simp [h]), infStabilize_unmounted 6 s h]
    | refresh =>
      simp only [infStep]
      unfold infRefresh infFetchStart
      rw [if_pos (by simp [h])]
      rw [infStabilize_unmounted 6 _ (by simp [h])]
      rfl
    | reset =>
      simp only [infStep]
      unfold infReset
      dsimp only
      rw [if_neg (show ¬ (({ s with currentPage := 1 } : InfState).isMounted = true) from
        by simp [h])]
      split
      · unfold infFetchStart
        rw [if_pos (by simp [h]), infStabilize_unmounted 6 _ (by simp [h])]
        rfl
      · rw [infStabilize_unmounted 6 _ (by simp [h])]
        rfl
    | settleOk v =>
      simp only [infStep]
      cases hout : s.outstanding with
      | nil =>
        simp only [infSettleOk, hout]
        rw [infStabilize_unmounted 6 s h]
      | cons c rest =>
        simp only [infSettleOk, hout]
        rw [if_neg (by simp [h]), if_neg (by simp [h])]
        rw [infStabilize_unmounted 6 _ (by simp [h])]
        rfl
    | settleErr e =>
      simp only [infStep]
      cases hout : s.outstanding with
      | nil =>
        simp only [infSettleErr, hout]
        rw [infStabilize_unmounted 6 s h]
      | cons c rest =>
        simp only [infSettleErr, hout]
        rw [if_neg (by simp [h]), if_neg (by simp [h])]
        rw [infStabilize_unmounted 6 _ (by simp [h])]
        rfl
    | unmount =>
      simp only [infStep]
      rfl
  · intro s ev h hne
    cases ev with
    | mount => exact absurd rfl hne
    | refresh =>
      simp only [qStep]
      unfold qFetchStart
      rw [if_pos (by simp [h])]
    | settleOk v =>
      simp only [qStep]
      unfold qSettleOk
      split
      · rfl
      · rw [if_neg (by simp [h]), if_neg (by simp [h])]
        rfl
    | settleErr e =>
      simp only [qStep]
      unfold qSettleErr
      split
      · rfl
      · rw [if_neg (by simp [h]), if_neg (by simp [h])]
        rfl
    | unmount =>
      simp only [qStep]
      rfl

/-- C9, witness: the theorem applied to a paginated controller that
unmounted with its mount fetch still outstanding, then received the
settle and a `refresh()` call. -/
theorem C9_no_mutation_after_unmount_witness :
    (pagRun (pagInit true 1 1 10 none none) [PagEv.mount, PagEv.unmount]).isMounted = false ∧
    PagEv.settleOk (some resPage3) ≠ PagEv.mount ∧
    pagObs (pagStep (PagEv.settleOk (some resPage3))
        (pagRun (pagInit true 1 1 10 none none) [PagEv.mount, PagEv.unmount])) =
      pagObs (pagRun (pagInit true 1 1 10 none none) [PagEv.mount, PagEv.unmount]) :=
  ⟨by decide, by decide,
   C9_no_mutation_after_unmount.1 _ (PagEv.settleOk (some resPage3)) (by decide) (by decide)⟩

end RQHooks
